import Mathlib

set_option maxRecDepth 40000

/-!
Verification development for the ToDoZen task-manager repository.

The repository has two application files:
* `upgraded_task.py` — the full suite (`Storage` over SQLite, `ToDoZenApp`),
  modelled below in namespace `Upgraded`;
* `task.py` — the rewritten local app (`Storage` over JSON/Mongo, `ToDoZen`),
  modelled below in namespace `Legacy`.

Python `datetime` values are modelled by `PyDateTime` (proleptic Gregorian
calendar; seconds and microseconds are dropped because the application only
ever constructs datetimes at minute granularity and only compares dates at
day granularity).  `timedelta(days=n)` is modelled by iterating the calendar
successor/predecessor, and `dateutil.relativedelta(months=1)` by a month
increment that clamps the day to the target month's length, exactly the
library's documented behaviour.  ISO text columns are modelled by their parse
class (`IsoText`): `iso dt` stands for the canonical ISO rendering of `dt`
and `bad s` for any text `datetime.fromisoformat` rejects.
-/

/-- Gregorian leap-year test, as Python's `calendar`/`datetime` define it. -/
def isLeap (y : Int) : Bool := (y % 4 == 0) && (!(y % 100 == 0) || (y % 400 == 0))

/-- Number of days in month `m` of year `y` (months are 1..12). -/
def daysInMonth (y m : Int) : Int :=
  if m = 2 then (if isLeap y then 29 else 28)
  else if m = 4 ∨ m = 6 ∨ m = 9 ∨ m = 11 then 30 else 31

/-- Days since 1970-01-01 of the civil date `(y, m, d)` (Hinnant's algorithm,
with Euclidean division).  This is the day-number Python's `date.toordinal`
induces, shifted to the Unix epoch; it is used to give meaning to `weekday`
and to chronological comparison. -/
def daysFromCivil (y m d : Int) : Int :=
  let yy : Int := if m ≤ 2 then y - 1 else y
  let era : Int := yy / 400
  let yoe : Int := yy - era * 400
  let mp : Int := (m + 9) % 12
  let doy : Int := (153 * mp + 2) / 5 + d - 1
  let doe : Int := yoe * 365 + yoe / 4 - yoe / 100 + doy
  era * 146097 + doe - 719468

theorem isLeap_iff (y : Int) : isLeap y = true ↔ (y % 4 = 0 ∧ (¬ y % 100 = 0 ∨ y % 400 = 0)) := by
  simp [isLeap]

theorem era_yoe_eq (yy : Int) :
    (yy / 400) * 146097 + ((yy - (yy / 400) * 400) * 365 + (yy - (yy / 400) * 400) / 4
      - (yy - (yy / 400) * 400) / 100)
    = 365 * yy + yy / 4 - yy / 100 + yy / 400 := by
  obtain ⟨q, s, hqs, hs0, hs1⟩ : ∃ q s : Int, yy = 400 * q + s ∧ 0 ≤ s ∧ s < 400 :=
    ⟨yy / 400, yy % 400, by omega, by omega, by omega⟩
  subst hqs
  have h400 : (400 * q + s) / 400 = q := by omega
  have h4 : (400 * q + s) / 4 = 100 * q + s / 4 := by omega
  have h100 : (400 * q + s) / 100 = 4 * q + s / 100 := by omega
  rw [h400, h4, h100]
  have hs4 : (400 * q + s - q * 400) / 4 = s / 4 := by omega
  have hs100 : (400 * q + s - q * 400) / 100 = s / 100 := by omega
  rw [hs4, hs100]
  omega

theorem daysFromCivil_eq (y m d : Int) :
    daysFromCivil y m d
    = (365 * (if m ≤ 2 then y - 1 else y) + (if m ≤ 2 then y - 1 else y) / 4
       - (if m ≤ 2 then y - 1 else y) / 100 + (if m ≤ 2 then y - 1 else y) / 400)
      + (153 * ((m + 9) % 12) + 2) / 5 + d - 1 - 719468 := by
  simp only [daysFromCivil]
  have := era_yoe_eq (if m ≤ 2 then y - 1 else y)
  omega

theorem daysFromCivil_day_succ (y m d : Int) :
    daysFromCivil y m (d + 1) = daysFromCivil y m d + 1 := by
  rw [daysFromCivil_eq, daysFromCivil_eq]
  omega

theorem daysFromCivil_year_succ (y : Int) :
    daysFromCivil (y + 1) 1 1 = daysFromCivil y 12 31 + 1 := by
  rw [daysFromCivil_eq, daysFromCivil_eq]
  norm_num
  omega

theorem daysFromCivil_feb_mar (y : Int) :
    daysFromCivil y 3 1 = daysFromCivil y 2 (daysInMonth y 2) + 1 := by
  rw [daysFromCivil_eq, daysFromCivil_eq]
  unfold daysInMonth
  obtain ⟨q, s, hy, hs0, hs1⟩ : ∃ q s : Int, y = 400 * q + s + 1 ∧ 0 ≤ s ∧ s < 400 :=
    ⟨(y - 1) / 400, (y - 1) % 400, by omega, by omega, by omega⟩
  subst hy
  have e1 : (400 * q + s) / 4 = 100 * q + s / 4 := by omega
  have e2 : (400 * q + s) / 100 = 4 * q + s / 100 := by omega
  have e3 : (400 * q + s) / 400 = q := by omega
  have e4 : (400 * q + s + 1) / 4 = 100 * q + (s + 1) / 4 := by omega
  have e5 : (400 * q + s + 1) / 100 = 4 * q + (s + 1) / 100 := by omega
  have e6 : (400 * q + s + 1) / 400 = q + (s + 1) / 400 := by omega
  have hp := isLeap_iff (400 * q + s + 1)
  cases hl : isLeap (400 * q + s + 1) <;>
    simp only [hl] at hp ⊢ <;> norm_num at hp ⊢ <;> omega

set_option maxHeartbeats 2000000 in
theorem daysFromCivil_month_succ (y m : Int) (h1 : 1 ≤ m) (h2 : m ≤ 11) :
    daysFromCivil y (m + 1) 1 = daysFromCivil y m (daysInMonth y m) + 1 := by
  interval_cases m
  · rw [daysFromCivil_eq, daysFromCivil_eq]; unfold daysInMonth; norm_num; try omega
  · exact daysFromCivil_feb_mar y
  · rw [daysFromCivil_eq, daysFromCivil_eq]; unfold daysInMonth; norm_num; try omega
  · rw [daysFromCivil_eq, daysFromCivil_eq]; unfold daysInMonth; norm_num; try omega
  · rw [daysFromCivil_eq, daysFromCivil_eq]; unfold daysInMonth; norm_num; try omega
  · rw [daysFromCivil_eq, daysFromCivil_eq]; unfold daysInMonth; norm_num; try omega
  · rw [daysFromCivil_eq, daysFromCivil_eq]; unfold daysInMonth; norm_num; try omega
  · rw [daysFromCivil_eq, daysFromCivil_eq]; unfold daysInMonth; norm_num; try omega
  · rw [daysFromCivil_eq, daysFromCivil_eq]; unfold daysInMonth; norm_num; try omega
  · rw [daysFromCivil_eq, daysFromCivil_eq]; unfold daysInMonth; norm_num; try omega
  · rw [daysFromCivil_eq, daysFromCivil_eq]; unfold daysInMonth; norm_num; try omega

/-- Model of a Python `datetime` value (seconds/microseconds dropped, see
the header comment). -/
structure PyDateTime where
  year : Int
  month : Int
  day : Int
  hour : Int
  minute : Int
deriving DecidableEq

/-- The date fields `(year, month, day)` of a datetime (Python's `.date()`). -/
def PyDateTime.dateTriple (t : PyDateTime) : Int × Int × Int := (t.year, t.month, t.day)

/-- Day-number of a datetime's date. -/
def PyDateTime.toDays (t : PyDateTime) : Int := daysFromCivil t.year t.month t.day

/-- Minute-number since the epoch; chronological comparison of `datetime`
values compares these. -/
def PyDateTime.toMin (t : PyDateTime) : Int := t.toDays * 1440 + t.hour * 60 + t.minute

/-- Python `datetime.weekday()`: 0 = Monday .. 6 = Sunday.
1970-01-01 (day-number 0) was a Thursday (= 3). -/
def PyDateTime.weekday (t : PyDateTime) : Int := (t.toDays + 3) % 7

/-- A datetime whose date fields denote a real calendar date (what Python's
`datetime` constructor enforces). -/
def PyDateTime.ValidDate (t : PyDateTime) : Prop :=
  1 ≤ t.month ∧ t.month ≤ 12 ∧ 1 ≤ t.day ∧ t.day ≤ daysInMonth t.year t.month

instance (t : PyDateTime) : Decidable t.ValidDate := by
  unfold PyDateTime.ValidDate; infer_instance

/-- Calendar successor of a datetime's date (time of day untouched). -/
def nextDay (t : PyDateTime) : PyDateTime :=
  if t.day < daysInMonth t.year t.month then { t with day := t.day + 1 }
  else if t.month < 12 then { t with month := t.month + 1, day := 1 }
  else { t with year := t.year + 1, month := 1, day := 1 }

/-- Calendar predecessor of a datetime's date (time of day untouched). -/
def prevDay (t : PyDateTime) : PyDateTime :=
  if 1 < t.day then { t with day := t.day - 1 }
  else if 1 < t.month then { t with month := t.month - 1, day := daysInMonth t.year (t.month - 1) }
  else { t with year := t.year - 1, month := 12, day := 31 }

/-- Python `dt + timedelta(days=n)`: iterate the calendar successor (or
predecessor for negative `n`). -/
def addDays (t : PyDateTime) (n : Int) : PyDateTime :=
  if 0 ≤ n then (Nat.rec t (fun _ acc => nextDay acc) n.toNat : PyDateTime)
  else (Nat.rec t (fun _ acc => prevDay acc) (-n).toNat : PyDateTime)

/-- Model of `dateutil.relativedelta(months=1)` addition: advance one month,
clamping the day to the length of the target month. -/
def addOneMonth (t : PyDateTime) : PyDateTime :=
  let y : Int := if t.month = 12 then t.year + 1 else t.year
  let m : Int := if t.month = 12 then 1 else t.month + 1
  { t with year := y, month := m, day := min t.day (daysInMonth y m) }

theorem toDays_nextDay (t : PyDateTime) (h : t.ValidDate) :
    (nextDay t).toDays = t.toDays + 1 := by
  obtain ⟨hm1, hm2, hd1, hd2⟩ := h
  unfold nextDay
  split_ifs with hlt hm
  · exact daysFromCivil_day_succ t.year t.month t.day
  · have hde : t.day = daysInMonth t.year t.month := by omega
    show daysFromCivil t.year (t.month + 1) 1 = daysFromCivil t.year t.month t.day + 1
    rw [hde]
    exact daysFromCivil_month_succ t.year t.month hm1 (by omega)
  · have hm12 : t.month = 12 := by omega
    rw [hm12] at hd2 hlt
    have h31 : daysInMonth t.year 12 = 31 := by unfold daysInMonth; norm_num
    have hde : t.day = 31 := by omega
    show daysFromCivil (t.year + 1) 1 1 = daysFromCivil t.year t.month t.day + 1
    rw [hm12, hde]
    exact daysFromCivil_year_succ t.year

theorem daysInMonth_pos (y m : Int) : 28 ≤ daysInMonth y m := by
  unfold daysInMonth
  split_ifs <;> omega

theorem valid_nextDay (t : PyDateTime) (h : t.ValidDate) : (nextDay t).ValidDate := by
  obtain ⟨hm1, hm2, hd1, hd2⟩ := h
  have h28a := daysInMonth_pos t.year (t.month + 1)
  have h28b := daysInMonth_pos (t.year + 1) 1
  unfold nextDay PyDateTime.ValidDate
  split_ifs <;> simp_all <;> omega

theorem hour_nextDay (t : PyDateTime) : (nextDay t).hour = t.hour ∧ (nextDay t).minute = t.minute := by
  unfold nextDay
  split_ifs <;> exact ⟨rfl, rfl⟩

theorem addDays_nat_spec (t : PyDateTime) (h : t.ValidDate) (n : Nat) :
    (Nat.rec t (fun _ acc => nextDay acc) n : PyDateTime).toDays = t.toDays + n
    ∧ (Nat.rec t (fun _ acc => nextDay acc) n : PyDateTime).ValidDate
    ∧ (Nat.rec t (fun _ acc => nextDay acc) n : PyDateTime).hour = t.hour
    ∧ (Nat.rec t (fun _ acc => nextDay acc) n : PyDateTime).minute = t.minute := by
  induction n with
  | zero => exact ⟨by simp, h, rfl, rfl⟩
  | succ k ih =>
    obtain ⟨ih1, ih2, ih3, ih4⟩ := ih
    refine ⟨?_, valid_nextDay _ ih2, ?_, ?_⟩
    · show (nextDay _).toDays = _
      rw [toDays_nextDay _ ih2, ih1]; push_cast; ring
    · exact (hour_nextDay _).1.trans ih3
    · exact (hour_nextDay _).2.trans ih4

theorem addDays_spec (t : PyDateTime) (n : Int) (h : t.ValidDate) (hn : 0 ≤ n) :
    (addDays t n).toDays = t.toDays + n ∧ (addDays t n).ValidDate
    ∧ (addDays t n).hour = t.hour ∧ (addDays t n).minute = t.minute := by
  unfold addDays
  rw [if_pos hn]
  have := addDays_nat_spec t h n.toNat
  rcases this with ⟨h1, h2, h3, h4⟩
  exact ⟨by rw [h1]; omega, h2, h3, h4⟩

theorem weekday_addDays (t : PyDateTime) (n : Int) (h : t.ValidDate) (hn : 0 ≤ n) :
    (addDays t n).weekday = (t.weekday + n) % 7 := by
  unfold PyDateTime.weekday
  rw [(addDays_spec t n h hn).1]
  omega

/-!
JSON model.  `recurrence_extra` is stored as TEXT produced by `json.dumps`
and read back with `json.loads`; both are modelled executably.  Numeric
literals are modelled as integers — the application only ever writes integer
numbers into this column.
-/

/-- A parsed JSON value (Python object produced by `json.loads`). -/
inductive Jv where
  | jnull : Jv
  | jbool : Bool → Jv
  | jint : Int → Jv
  | jstr : String → Jv
  | jarr : List Jv → Jv
  | jobj : List (String × Jv) → Jv

/-- Python truthiness of a JSON-decoded value. -/
def truthy : Jv → Bool
  | .jnull => false
  | .jbool b => b
  | .jint n => n != 0
  | .jstr s => s != ""
  | .jarr xs => !xs.isEmpty
  | .jobj kvs => !kvs.isEmpty

/-- Python truthiness of `dict.get`'s result (`None` when the key is absent). -/
def optTruthy : Option Jv → Bool
  | none => false
  | some v => truthy v

/-- Python `dict.get` on a decoded JSON object (later duplicate keys win,
as when Python builds a dict from parsed pairs). -/
def jGet (kvs : List (String × Jv)) (k : String) : Option Jv :=
  (kvs.reverse.find? (fun p => p.1 == k)).map (fun p => p.2)

/-- Python `int(s)` on a string: optional surrounding whitespace, optional
sign, decimal digits. -/
def strToInt (s : String) : Option Int :=
  let cs := s.data.dropWhile (fun c => c = ' ' ∨ c = '\t' ∨ c = '\n' ∨ c = '\r')
  let cs := (cs.reverse.dropWhile (fun c => c = ' ' ∨ c = '\t' ∨ c = '\n' ∨ c = '\r')).reverse
  let (sgn, ds) : Int × List Char :=
    match cs with
    | '-' :: t => (-1, t)
    | '+' :: t => (1, t)
    | t => (1, t)
  if ds.isEmpty ∨ ¬ ds.all Char.isDigit then none
  else some (sgn * (ds.foldl (fun a c => a * 10 + ((c.toNat : Int) - 48)) 0))

/-- Python `int(x)` on a decoded JSON value (raises for anything but a
number, bool or numeric string). -/
def pyInt : Jv → Option Int
  | .jint n => some n
  | .jbool b => some (if b then 1 else 0)
  | .jstr s => strToInt s
  | _ => none

/-- A decoded JSON value usable as an integer in list sorting/comparison
against an int (Python ints and bools; anything else raises `TypeError`). -/
def jvAsInt : Jv → Option Int
  | .jint n => some n
  | .jbool b => some (if b then 1 else 0)
  | _ => none

/-- Elements of a decoded `weekdays` value as Python integers; `none` models
the `TypeError` Python raises when sorting/comparing non-numeric content. -/
def asIntList : Jv → Option (List Int)
  | .jarr xs => xs.mapM jvAsInt
  | _ => none

/-- JSON string escaping as `json.dumps` performs it (quotes and backslashes;
control characters do not occur in this application's data). -/
def escChar (c : Char) : List Char :=
  if c = '"' then ['\\', '"'] else if c = '\\' then ['\\', '\\'] else [c]

/-- Render a string as a JSON string literal. -/
def jQuote (s : String) : String :=
  "\"" ++ String.mk (s.data.foldr (fun c acc => escChar c ++ acc) []) ++ "\""

mutual

/-- Model of `json.dumps` with its default separators. -/
def jDump : Jv → String
  | .jnull => "null"
  | .jbool true => "true"
  | .jbool false => "false"
  | .jint n => toString n
  | .jstr s => jQuote s
  | .jarr xs => "[" ++ jDumpItems xs ++ "]"
  | .jobj kvs => "\x7b" ++ jDumpPairs kvs ++ "\x7d"

/-- Comma-separated array items for `jDump`. -/
def jDumpItems : List Jv → String
  | [] => ""
  | [v] => jDump v
  | v :: vs => jDump v ++ ", " ++ jDumpItems vs

/-- Comma-separated object pairs for `jDump`. -/
def jDumpPairs : List (String × Jv) → String
  | [] => ""
  | [(k, v)] => jQuote k ++ ": " ++ jDump v
  | (k, v) :: kvs => jQuote k ++ ": " ++ jDump v ++ ", " ++ jDumpPairs kvs

end

/-- Whitespace skipping for the JSON reader. -/
def skipWs : List Char → List Char
  | c :: cs => if c = ' ' ∨ c = '\t' ∨ c = '\n' ∨ c = '\r' then skipWs cs else c :: cs
  | [] => []

/-- JSON string-literal body reader (after the opening quote), with the
escape sequences the application's data can contain. -/
def parseStrBody (acc : List Char) : List Char → Option (String × List Char)
  | [] => none
  | c :: cs =>
    if c = '"' then some (String.mk acc.reverse, cs)
    else if c = '\\' then
      match cs with
      | [] => none
      | e :: cs2 =>
        if e = '"' then parseStrBody ('"' :: acc) cs2
        else if e = '\\' then parseStrBody ('\\' :: acc) cs2
        else if e = '/' then parseStrBody ('/' :: acc) cs2
        else if e = 'n' then parseStrBody ('\n' :: acc) cs2
        else if e = 't' then parseStrBody ('\t' :: acc) cs2
        else if e = 'r' then parseStrBody ('\r' :: acc) cs2
        else none
    else parseStrBody (c :: acc) cs

/-- Decimal digit run reader. -/
def parseDigits (cs : List Char) : Option (Nat × List Char) :=
  let ds := cs.takeWhile Char.isDigit
  let rest := cs.dropWhile Char.isDigit
  if ds.isEmpty then none
  else some (ds.foldl (fun a c => a * 10 + (c.toNat - 48)) 0, rest)

mutual

/-- Fuel-indexed JSON value reader (the fuel bounds recursion depth; callers
pass the input length plus headroom, which suffices since every nesting
level consumes input). -/
def parseVal : Nat → List Char → Option (Jv × List Char)
  | 0, _ => none
  | fuel + 1, cs =>
    match skipWs cs with
    | [] => none
    | c :: rest =>
      if c = 'n' then
        match rest with
        | 'u' :: 'l' :: 'l' :: r => some (.jnull, r)
        | _ => none
      else if c = 't' then
        match rest with
        | 'r' :: 'u' :: 'e' :: r => some (.jbool true, r)
        | _ => none
      else if c = 'f' then
        match rest with
        | 'a' :: 'l' :: 's' :: 'e' :: r => some (.jbool false, r)
        | _ => none
      else if c = '"' then
        (parseStrBody [] rest).map (fun p => (.jstr p.1, p.2))
      else if c = '-' then
        (parseDigits rest).map (fun p => (.jint (-(p.1 : Int)), p.2))
      else if c.isDigit then
        (parseDigits (c :: rest)).map (fun p => (.jint (p.1 : Int), p.2))
      else if c = '[' then
        match skipWs rest with
        | ']' :: r => some (.jarr [], r)
        | _ => (parseArrItems fuel rest).map (fun p => (.jarr p.1, p.2))
      else if c = '\x7b' then
        match skipWs rest with
        | '\x7d' :: r => some (.jobj [], r)
        | _ => (parseObjItems fuel rest).map (fun p => (.jobj p.1, p.2))
      else none

/-- Array items (after the opening bracket). -/
def parseArrItems : Nat → List Char → Option (List Jv × List Char)
  | 0, _ => none
  | fuel + 1, cs =>
    match parseVal fuel cs with
    | none => none
    | some (v, r1) =>
      match skipWs r1 with
      | ',' :: r2 => (parseArrItems fuel r2).map (fun p => (v :: p.1, p.2))
      | ']' :: r2 => some ([v], r2)
      | _ => none

/-- Object pairs (after the opening brace). -/
def parseObjItems : Nat → List Char → Option (List (String × Jv) × List Char)
  | 0, _ => none
  | fuel + 1, cs =>
    match skipWs cs with
    | '"' :: r0 =>
      match parseStrBody [] r0 with
      | none => none
      | some (k, r1) =>
        match skipWs r1 with
        | ':' :: r2 =>
          match parseVal fuel r2 with
          | none => none
          | some (v, r3) =>
            match skipWs r3 with
            | ',' :: r4 => (parseObjItems fuel r4).map (fun p => ((k, v) :: p.1, p.2))
            | '\x7d' :: r4 => some ([(k, v)], r4)
            | _ => none
        | _ => none
    | _ => none

end

/-- Model of `json.loads`: `none` models the `JSONDecodeError` raise. -/
def json_loads (s : String) : Option Jv :=
  match parseVal (s.length + 2) s.data with
  | some (v, rest) => if skipWs rest = [] then some v else none
  | none => none

/-- The text content of a `due`/`created`-style ISO column, modelled by its
parse class: `iso dt` stands for the canonical ISO rendering of `dt`, and
`bad s` for any text that `datetime.fromisoformat` rejects. -/
inductive IsoText where
  | iso : PyDateTime → IsoText
  | bad : String → IsoText
deriving DecidableEq

/-- Model of the apps' `parse_iso` helper (both files): the parsed datetime,
or `None` when parsing fails. -/
def parse_iso : IsoText → Option PyDateTime
  | .iso dt => some dt
  | .bad _ => none

/-- Membership of `needle` as a contiguous run of `hay` (Python's `in` on
strings). -/
def subList (hay needle : List Char) : Bool :=
  needle.isPrefixOf hay ||
    match hay with
    | [] => false
    | _ :: t => subList t needle

/-- Python `needle in hay` on strings. -/
def strContains (hay needle : String) : Bool := subList hay.data needle.data

/-- The Python exceptions the modelled code paths can raise. -/
inductive PyErr where
  | jsonDecodeError : PyErr
  | attributeError : PyErr
  | typeError : PyErr
  | valueError : PyErr
deriving DecidableEq

example : json_loads "\x7b\x7d" = some (.jobj []) := rfl
example : json_loads "\x7b\"weekdays\": [1, 4]\x7d" = some (.jobj [("weekdays", .jarr [.jint 1, .jint 4])]) := rfl
example : json_loads "oops" = none := rfl
example : jDump (.jobj [("weekdays", .jarr [.jint 1, .jint 4])]) = "\x7b\"weekdays\": [1, 4]\x7d" := by decide
example : jDump (.jstr "\x7b\x7d") = "\"\x7b\x7d\"" := by decide
example : json_loads (jDump (.jstr "\x7b\"a\": 1\x7d")) = some (.jstr "\x7b\"a\": 1\x7d") := rfl

/-!
Model of `upgraded_task.py` (`Storage` over SQLite + `ToDoZenApp`).

SQLite specifics modelled: `INSERT OR REPLACE` keyed on the `id` primary key
deletes any conflicting row and appends the fresh one (fresh rowid, hence
last in unordered SELECT); `UPDATE ... WHERE id=?` rewrites the named columns
of every matching row.  The Mongo mirror is absent in this configuration
(`_sync_task_to_mongo` is a no-op when `mongo_collection` is `None`), so the
storage operations below touch SQLite state only.
-/

namespace Upgraded

/-- One row of the `tasks` table. -/
structure Row where
  id : String
  user : String
  title : String
  category : String
  due : IsoText
  created : String
  done : Int
  recurrence : String
  recurrence_extra : String
  notified : Int
  xp : Int
deriving DecidableEq

/-- One row of the `users` table (`password_hash` is an opaque blob the
modelled claims never touch, so it is omitted). -/
structure URow where
  username : String
  coins : Int
  streak : Int
  last_completed : Option IsoText
deriving DecidableEq

/-- A loosely-typed Python task dict, as passed to `Storage.add_task`
(missing keys are `none`; `done`/`notified` carry whatever JSON value the
caller had, since only their truthiness is used). -/
structure TaskDict where
  id : Option String
  user : String
  title : String
  category : String
  due : IsoText
  created : Option String
  done : Jv
  recurrence : Option String
  recurrence_extra : Option Jv
  notified : Jv
  xp : Option Int

/-- `Storage.add_task`: `INSERT OR REPLACE` of the normalised record.
`fresh` stands for the `str(uuid4())` draw and `nowIso` for the
`datetime.utcnow().isoformat()` draw made on this call. -/
def Storage.add_task (fresh nowIso : String) (t : TaskDict) (rows : List Row) : List Row :=
  let rid : String :=
    match t.id with
    | some s => if s = "" then fresh else s
    | none => fresh
  let r : Row :=
    { id := rid
      user := t.user
      title := t.title
      category := t.category
      due := t.due
      created := match t.created with
                 | some c => if c = "" then nowIso else c
                 | none => nowIso
      done := if truthy t.done then 1 else 0
      recurrence := match t.recurrence with
                    | some s => if s = "" then "none" else s
                    | none => "none"
      recurrence_extra := jDump (t.recurrence_extra.getD (.jobj []))
      notified := if truthy t.notified then 1 else 0
      xp := t.xp.getD 0 }
  (rows.filter (fun x => x.id ≠ rid)) ++ [r]

/-- `Storage.get_task`: `SELECT * FROM tasks WHERE id=?` + `fetchone`. -/
def Storage.get_task (rows : List Row) (id_ : String) : Option Row :=
  rows.find? (fun r => r.id == id_)

/-- `Storage.update_task`: rewrite the named columns (given as `f`) of every
row matching the id. -/
def Storage.update_task (rows : List Row) (id_ : String) (f : Row → Row) : List Row :=
  rows.map (fun r => if r.id = id_ then f r else r)

/-- `Storage.get_user`. -/
def Storage.get_user (users : List URow) (name : String) : Option URow :=
  users.find? (fun u => u.username == name)

/-- `Storage.update_user`: rewrite the named columns of every matching row. -/
def Storage.update_user (users : List URow) (name : String) (f : URow → URow) : List URow :=
  users.map (fun u => if u.username = name then f u else u)

/-- `award_xp_for_task` (lines 259-268): deterministic reward from category
keywords and title length. -/
def award_xp_for_task (t : Row) : Int :=
  let cat := t.category.toLower
  let base : Int := 10
  let base := base + (if strContains cat "work" then 5 else 0)
  let base := base + (if strContains cat "urgent" || strContains cat "important" then 10 else 0)
  base + min 20 ((t.title.length : Int) / 5)

/-- The fresh task dict built at the end of
`_handle_recurrence_after_completion` (`dict(task)` on a fetched row, with
id/due/done/notified overridden).  Note `recurrence_extra` is the raw TEXT
column wrapped back into a Python string. -/
def row_to_new_task (task : Row) (newId : String) (nd : PyDateTime) : TaskDict :=
  { id := some newId
    user := task.user
    title := task.title
    category := task.category
    due := .iso nd
    created := some task.created
    done := .jbool false
    recurrence := some task.recurrence
    recurrence_extra := some (.jstr task.recurrence_extra)
    notified := .jbool false
    xp := some task.xp }

/-- The `found`/`delta` computation of the weekday-set branch
(lines 617-628): first sorted weekday strictly above `wd`, else wrap to the
smallest with `(7 - wd) + smallest` days; `none` models the `IndexError` on
an empty sorted list (unreachable behind the truthiness guard). -/
def weekdays_delta (wd : Int) (sorted : List Int) : Option Int :=
  match sorted.find? (fun d => decide (wd < d)) with
  | some f => some (f - wd)
  | none =>
    match sorted with
    | [] => none
    | f0 :: _ => some ((7 - wd) + f0)

/-- The `next_due` computation of `_handle_recurrence_after_completion`
(lines 597-628): `.ok none` = no next occurrence, `.error` = a raise. -/
def next_due_of (task : Row) : Except PyErr (Option PyDateTime) :=
  match parse_iso task.due with
  | none => .ok none
  | some due =>
    if task.recurrence = "daily" then .ok (some (addDays due 1))
    else if task.recurrence = "weekly" then .ok (some (addDays due 7))
    else if task.recurrence = "monthly" then .ok (some (addOneMonth due))
    else if task.recurrence = "custom" then
      match json_loads (if task.recurrence_extra = "" then "\x7b\x7d" else task.recurrence_extra) with
      | none => .error .jsonDecodeError
      | some (.jobj kvs) =>
        let exd := jGet kvs "every_x_days"
        if optTruthy exd then
          match pyInt (exd.getD .jnull) with
          | none => .error .valueError
          | some n => .ok (some (addDays due n))
        else
          let wds := jGet kvs "weekdays"
          if optTruthy wds then
            match asIntList (wds.getD .jnull) with
            | none => .error .typeError
            | some ds =>
              match weekdays_delta due.weekday (ds.insertionSort (· ≤ ·)) with
              | none => .error .typeError
              | some delta => .ok (some (addDays due delta))
          else .ok none
      | some _ => .error .attributeError
    else .ok none

/-- `_handle_recurrence_after_completion` (lines 596-636): compute the next
due; on success insert the fresh task row; a raise leaves the store as it
was and propagates. -/
def handle_recurrence (task : Row) (newId nowIso : String) (rows : List Row) :
    List Row × Option PyErr :=
  match next_due_of task with
  | .error e => (rows, some e)
  | .ok none => (rows, none)
  | .ok (some nd) =>
    (Storage.add_task newId nowIso (row_to_new_task task newId nd) rows, none)

/-- Whole application state touched by the modelled operations. -/
structure AppState where
  tasks : List Row
  users : List URow
deriving DecidableEq

/-- The streak update of `_toggle_done` (lines 576-586). -/
def new_streak_of (u : URow) (today : PyDateTime) : Int :=
  let last := u.last_completed.bind parse_iso
  if last.any (fun l => l.dateTriple == (addDays today (-1)).dateTriple) then u.streak + 1
  else if last.any (fun l => l.dateTriple == today.dateTriple) then u.streak
  else 1

/-- `ToDoZenApp._toggle_done` (lines 564-594).  `cu` is `self.current_user`,
`today` is `date.today()`, `utcNow`/`utcText` the `datetime.utcnow()` draws,
and `newId` the `uuid4` draw a recurrence insert would use.  The second
component records an escaped exception (state changes made before the raise
are kept, as the committed SQLite writes are). -/
def toggle_done (st : AppState) (id_ cu : String) (today utcNow : PyDateTime)
    (utcText newId : String) : AppState × Option PyErr :=
  match Storage.get_task st.tasks id_ with
  | none => (st, none)
  | some task =>
    let new_done : Bool := task.done == 0
    let tasks1 := Storage.update_task st.tasks id_
      (fun r => { r with done := if new_done then 1 else 0 })
    if new_done then
      let xp := award_xp_for_task task
      let (tasks2, users2) :=
        match Storage.get_user st.users cu with
        | none => (tasks1, st.users)
        | some user =>
          let users' := Storage.update_user st.users cu
            (fun u => { u with coins := user.coins + xp / 5
                               streak := new_streak_of user today
                               last_completed := some (.iso utcNow) })
          (Storage.update_task tasks1 id_ (fun r => { r with xp := xp }), users')
      if task.recurrence ≠ "" ∧ task.recurrence ≠ "none" then
        let res := handle_recurrence task newId utcText tasks2
        ({ tasks := res.1, users := users2 }, res.2)
      else ({ tasks := tasks2, users := users2 }, none)
    else ({ tasks := tasks1, users := st.users }, none)

/-- Python `dt + timedelta(minutes=n)`. -/
def addMinutes (t : PyDateTime) (n : Int) : PyDateTime :=
  let total := t.hour * 60 + t.minute + n
  { addDays t (total / 1440) with hour := total % 1440 / 60, minute := total % 1440 % 60 }

/-- `ToDoZenApp._snooze_choice` (lines 675-689): parse the menu value, fetch
the row, push `due` forward and re-arm `notified`. -/
def snooze_choice (st : AppState) (id_ : String) (val : String) : AppState × Option PyErr :=
  if val = "" ∨ val = "Snooze" then (st, none)
  else
    match strToInt (String.mk (val.data.filter (fun c => c ≠ 'm'))) with
    | none => (st, some .valueError)
    | some mins =>
      match Storage.get_task st.tasks id_ with
      | none => (st, none)
      | some task =>
        match parse_iso task.due with
        | none => (st, none)
        | some due =>
          let tasks' := Storage.update_task st.tasks id_
            (fun r => { r with due := .iso (addMinutes due mins), notified := 0 })
          ({ st with tasks := tasks' }, none)

/-- The per-task test of one `_notifier_loop` pass (lines 853-863): skip
done, already-notified and unparseable rows; fire when due lies in
`[now - 1 minute, now]`. -/
def notifier_check (now : PyDateTime) (t : Row) : Bool :=
  if t.done ≠ 0 then false
  else if t.notified ≠ 0 then false
  else
    match parse_iso t.due with
    | none => false
    | some due => decide (now.toMin - 1 ≤ due.toMin ∧ due.toMin ≤ now.toMin)

/-- Effect of one pass on one task row: emit the due-event and set
`notified=1` via the store when the check fires. -/
def notifier_step (now : PyDateTime) (t : Row) : Row × Bool :=
  if notifier_check now t then ({ t with notified := 1 }, true) else (t, false)

/-- A sequence of notifier passes over one task row, counting the emitted
due-events.  (Each pass re-reads the store; rows are keyed by unique id and
a pass only rewrites the checked row's `notified` flag, so the projection to
a single row is exact.) -/
def notifier_run (nows : List PyDateTime) (t : Row) : Row × Nat :=
  match nows with
  | [] => (t, 0)
  | now :: rest =>
    let s := notifier_step now t
    let r := notifier_run rest s.1
    (r.1, (if s.2 then 1 else 0) + r.2)

/-- `Storage.export_json`: the full store as a flat list of records (the
JSON file round-trips these records exactly, so export and the `json.load`
of an import are composed here). -/
def row_to_dict (r : Row) : TaskDict :=
  { id := some r.id
    user := r.user
    title := r.title
    category := r.category
    due := r.due
    created := some r.created
    done := .jint r.done
    recurrence := some r.recurrence
    recurrence_extra := some (.jstr r.recurrence_extra)
    notified := .jint r.notified
    xp := some r.xp }

/-- `Storage.export_json` (lines 215-219). -/
def Storage.export_json (rows : List Row) : List TaskDict := rows.map row_to_dict

/-- `Storage.import_json` (lines 221-225): re-apply every record through
`add_task`.  A real run draws a fresh uuid and timestamp per record; a single
`fresh`/`nowIso` is passed here because the theorems below only import
records whose `id` and `created` are present, where those defaults are
unused. -/
def Storage.import_json (fresh nowIso : String) (recs : List TaskDict) (rows : List Row) : List Row :=
  recs.foldl (fun acc t => Storage.add_task fresh nowIso t acc) rows

end Upgraded

/-!
Model of `task.py` (the rewritten local app: in-memory task list, `ToDoZen`,
and `Storage.save`'s Mongo mirror reconciliation).
-/

namespace Legacy

/-- One in-memory task dict of the legacy app (the title key is `task`). -/
structure LTask where
  id : String
  task : String
  category : String
  due : IsoText
  done : Bool
  created : String
  recurrence : String
  notified : Bool
deriving DecidableEq

/-- `ToDoZen._schedule_next_for_recurring` (lines 315-335): the next task
dict to append, or `none` (unparseable due, `none`, or any other recurrence
value — the legacy app has no custom recurrence).  Note the naive
`monthly = due + 30 days`. -/
def schedule_next (t : LTask) (newId : String) : Option LTask :=
  if t.recurrence = "none" then none
  else
    match parse_iso t.due with
    | none => none
    | some due =>
      let nd : Option PyDateTime :=
        if t.recurrence = "daily" then some (addDays due 1)
        else if t.recurrence = "weekly" then some (addDays due 7)
        else if t.recurrence = "monthly" then some (addDays due 30)
        else none
      nd.map (fun n => { t with id := newId, due := .iso n, done := false, notified := false })

/-- `ToDoZen.toggle_done` (lines 276-286): flip the first matching task;
on completion of a recurring task append the next occurrence at the end of
the list; on un-completion re-arm `notified`. -/
def toggle_done (tasks : List LTask) (task_id newId : String) : List LTask :=
  match tasks with
  | [] => []
  | t :: ts =>
    if t.id = task_id then
      let t1 := { t with done := !t.done }
      let appended := if t1.done && (t1.recurrence != "none") then schedule_next t1 newId else none
      let t2 := if !t1.done then { t1 with notified := false } else t1
      t2 :: (ts ++ appended.toList)
    else t :: toggle_done ts task_id newId

/-- Mongo `replace_one({"id": t.id}, t, upsert=True)`: replace the first
matching document, else insert. -/
def replace_one (rem : List LTask) (t : LTask) : List LTask :=
  match rem with
  | [] => [t]
  | r :: rs => if r.id = t.id then t :: rs else r :: replace_one rs t

/-- The set of truthy ids of a document list (Python builds these sets with
`if r.get("id")`, so empty/missing ids are skipped). -/
def idSet (rows : List LTask) : Finset String :=
  ((rows.map LTask.id).filter (fun s => s ≠ "")).toFinset

/-- The remote contents after the upsert sweep of `Storage.save`. -/
def pushed (tasks remote : List LTask) : List LTask :=
  tasks.foldl replace_one remote

/-- `remote_ids - local_ids` of `Storage.save`: remote ids with no local
counterpart (computed after the upsert sweep, as the code re-reads the
collection). -/
def to_delete_set (tasks remote : List LTask) : Finset String :=
  idSet (pushed tasks remote) \ idSet tasks

/-- The remote contents after `Storage.save`'s reconciliation: the upserted
collection, minus every document whose id is in `to_delete` (the
`delete_many` is only issued when `to_delete` is non-empty). -/
def save_remote (tasks remote : List LTask) : List LTask :=
  if to_delete_set tasks remote = ∅ then pushed tasks remote
  else (pushed tasks remote).filter (fun r => r.id ∉ to_delete_set tasks remote)

/-- `Storage.save` (lines 119-138), Mongo branch: upsert every local task,
then delete every remote document whose id is absent locally.  Returns the
(untouched) local list and the new remote contents. -/
def save (tasks remote : List LTask) : List LTask × List LTask :=
  (tasks, save_remote tasks remote)

end Legacy

/-!
General lemmas about the storage helpers.
-/

namespace Upgraded

theorem get_task_update (rows : List Row) (id_ : String) (f : Row → Row)
    (hf : ∀ r, (f r).id = r.id) :
    Storage.get_task (Storage.update_task rows id_ f) id_
      = (Storage.get_task rows id_).map f := by
  induction rows with
  | nil => rfl
  | cons r rs ih =>
    unfold Storage.get_task Storage.update_task at *
    by_cases h : r.id = id_
    · simp [List.find?, h, hf]
    · simp only [List.map_cons, List.find?, if_neg h]
      have hbe : (r.id == id_) = false := by simp [h]
      simp [hbe, ih]

theorem get_user_update (users : List URow) (name : String) (f : URow → URow)
    (hf : ∀ u, (f u).username = u.username) :
    Storage.get_user (Storage.update_user users name f) name
      = (Storage.get_user users name).map f := by
  induction users with
  | nil => rfl
  | cons u us ih =>
    unfold Storage.get_user Storage.update_user at *
    by_cases h : u.username = name
    · simp [List.find?, h, hf]
    · simp only [List.map_cons, List.find?, if_neg h]
      have hbe : (u.username == name) = false := by simp [h]
      simp [hbe, ih]

theorem map_id_update (rows : List Row) (id_ : String) (f : Row → Row)
    (hf : ∀ r, (f r).id = r.id) :
    (Storage.update_task rows id_ f).map Row.id = rows.map Row.id := by
  unfold Storage.update_task
  induction rows with
  | nil => rfl
  | cons r rs ih =>
    simp only [List.map_cons, ih]
    by_cases h : r.id = id_ <;> simp [h, hf]

end Upgraded

theorem weekday_range (t : PyDateTime) : 0 ≤ t.weekday ∧ t.weekday ≤ 6 := by
  unfold PyDateTime.weekday
  omega

theorem find_gt_least (wd : Int) (l : List Int) (hs : l.Sorted (· ≤ ·)) (f : Int)
    (h : l.find? (fun d => decide (wd < d)) = some f) :
    wd < f ∧ f ∈ l ∧ ∀ x ∈ l, wd < x → f ≤ x := by
  induction l with
  | nil => simp at h
  | cons a t ih =>
    rw [List.sorted_cons] at hs
    cases hpa : (decide (wd < a) : Bool) with
    | true =>
      have ha : wd < a := of_decide_eq_true hpa
      simp only [List.find?, hpa] at h
      cases h
      refine ⟨ha, List.mem_cons_self _ _, ?_⟩
      intro x hx _
      rcases List.mem_cons.mp hx with hx | hx
      · omega
      · exact hs.1 x hx
    | false =>
      have ha : ¬ wd < a := of_decide_eq_false hpa
      simp only [List.find?, hpa] at h
      obtain ⟨h1, h2, h3⟩ := ih hs.2 h
      refine ⟨h1, List.mem_cons_of_mem _ h2, ?_⟩
      intro x hx hwx
      rcases List.mem_cons.mp hx with hx | hx
      · omega
      · exact h3 x hx hwx

theorem find_gt_none (wd : Int) (l : List Int)
    (h : l.find? (fun d => decide (wd < d)) = none) :
    ∀ x ∈ l, x ≤ wd := by
  intro x hx
  have := List.find?_eq_none.mp h x hx
  simpa using this

theorem sorted_head_le (f0 : Int) (rest : List Int)
    (hs : (f0 :: rest).Sorted (· ≤ ·)) :
    ∀ x ∈ f0 :: rest, f0 ≤ x := by
  rw [List.sorted_cons] at hs
  intro x hx
  rcases List.mem_cons.mp hx with hx | hx
  · omega
  · exact hs.1 x hx

example : (⟨2024, 1, 2, 9, 0⟩ : PyDateTime).weekday = 1 := by decide
example : addDays ⟨2024, 1, 2, 9, 0⟩ 3 = ⟨2024, 1, 5, 9, 0⟩ := by decide
example : addDays ⟨2024, 1, 5, 9, 0⟩ 4 = ⟨2024, 1, 9, 9, 0⟩ := by decide
example : addOneMonth ⟨2025, 1, 31, 9, 0⟩ = ⟨2025, 2, 28, 9, 0⟩ := by decide
example : addOneMonth ⟨2024, 1, 31, 9, 0⟩ = ⟨2024, 2, 29, 9, 0⟩ := by decide
example : addDays ⟨2025, 1, 31, 9, 0⟩ 30 = ⟨2025, 3, 2, 9, 0⟩ := by decide

/-!
Claim C10 — missing-id mutators are no-ops.
-/

/-- C10: for every id with no matching task row, `_toggle_done` and
`_snooze_choice` leave the task store and the user profiles completely
unchanged and raise no error: the lookup returns nothing and each operation
returns early without writing. -/
theorem C10_missing_id (st : Upgraded.AppState) (id_ cu : String)
    (today utcNow : PyDateTime) (utcText newId : String) (val : String) (mins : Int)
    (hmiss : Upgraded.Storage.get_task st.tasks id_ = none)
    (hval : strToInt (String.mk (val.data.filter (fun c => c ≠ 'm'))) = some mins)
    (hmenu : ¬ (val = "" ∨ val = "Snooze")) :
    Upgraded.toggle_done st id_ cu today utcNow utcText newId = (st, none)
    ∧ Upgraded.snooze_choice st id_ val = (st, none) := by
  constructor
  · unfold Upgraded.toggle_done
    rw [hmiss]
  · unfold Upgraded.snooze_choice
    rw [if_neg hmenu, hval, hmiss]

/-- Witness for C10 at a concrete empty store and the menu value 10m. -/
theorem C10_missing_id_witness :
    Upgraded.toggle_done ⟨[], []⟩ "x" "guest" ⟨2024, 1, 2, 0, 0⟩ ⟨2024, 1, 2, 0, 0⟩ "c" "n"
      = (⟨[], []⟩, none)
    ∧ Upgraded.snooze_choice ⟨[], []⟩ "x" "10m" = (⟨[], []⟩, none) :=
  C10_missing_id ⟨[], []⟩ "x" "guest" ⟨2024, 1, 2, 0, 0⟩ ⟨2024, 1, 2, 0, 0⟩ "c" "n" "10m" 10
    rfl (by decide) (by decide)

/-!
Claim C1 — notifier emits each due occurrence at most once; the original
claim's "exactly one for any past due" fails when the due moment lies
outside every pass's one-minute grace window.
-/

theorem notifier_step_notified (now : PyDateTime) (t : Upgraded.Row)
    (h : t.notified ≠ 0) : Upgraded.notifier_step now t = (t, false) := by
  unfold Upgraded.notifier_step Upgraded.notifier_check
  by_cases hd : t.done ≠ 0 <;> simp [hd, h]

theorem notifier_run_notified (nows : List PyDateTime) (t : Upgraded.Row)
    (h : t.notified ≠ 0) : Upgraded.notifier_run nows t = (t, 0) := by
  induction nows with
  | nil => rfl
  | cons now rest ih =>
    unfold Upgraded.notifier_run
    rw [notifier_step_notified now t h]
    simp [ih]

theorem notifier_check_window (now : PyDateTime) (t : Upgraded.Row) (dt : PyDateTime)
    (hp : parse_iso t.due = some dt) (hd : t.done = 0) (hn : t.notified = 0) :
    Upgraded.notifier_check now t
      = decide (now.toMin - 1 ≤ dt.toMin ∧ dt.toMin ≤ now.toMin) := by
  unfold Upgraded.notifier_check
  rw [hp]
  simp [hd, hn]

/-- C1 (amended): a task with `done=false`, `notified=false` and a parseable
`due` receives at most one due-event over any sequence of scheduler passes,
and exactly one iff some pass falls with `due` inside its window
`[now - 1 minute, now]`; once `notified` is set, no pass emits an event for
this `(id, due)` pair (until `due` changes, which re-arms the flag). -/
theorem C1_notifier_amended (t : Upgraded.Row) (dt : PyDateTime) (nows : List PyDateTime)
    (hp : parse_iso t.due = some dt) :
    (t.notified ≠ 0 → (Upgraded.notifier_run nows t).2 = 0)
    ∧ (t.done = 0 → t.notified = 0 →
        (Upgraded.notifier_run nows t).2 ≤ 1
        ∧ ((Upgraded.notifier_run nows t).2 = 1
            ↔ ∃ now ∈ nows, now.toMin - 1 ≤ dt.toMin ∧ dt.toMin ≤ now.toMin)) := by
  constructor
  · intro h
    rw [notifier_run_notified nows t h]
  · intro hd hn
    induction nows with
    | nil =>
      constructor
      · simp [Upgraded.notifier_run]
      · simp [Upgraded.notifier_run]
    | cons now rest ih =>
      have hcheck := notifier_check_window now t dt hp hd hn
      unfold Upgraded.notifier_run
      by_cases hw : now.toMin - 1 ≤ dt.toMin ∧ dt.toMin ≤ now.toMin
      · have hc : Upgraded.notifier_check now t = true := by
          rw [hcheck]; exact decide_eq_true hw
        have hstep : Upgraded.notifier_step now t = ({ t with notified := 1 }, true) := by
          unfold Upgraded.notifier_step; rw [hc]; simp
        rw [hstep]
        have hrest : Upgraded.notifier_run rest { t with notified := 1 }
            = ({ t with notified := 1 }, 0) :=
          notifier_run_notified rest _ (by simp)
        simp only [hrest]
        constructor
        · norm_num
        · simp only [if_true]
          constructor
          · intro _
            exact ⟨now, List.mem_cons_self _ _, hw⟩
          · intro _
            trivial
      · have hc : Upgraded.notifier_check now t = false := by
          rw [hcheck]; exact decide_eq_false hw
        have hstep : Upgraded.notifier_step now t = (t, false) := by
          unfold Upgraded.notifier_step; rw [hc]; simp
        rw [hstep]
        simp only
        obtain ⟨ih1, ih2⟩ := ih
        constructor
        · simpa using ih1
        · rw [if_neg (by simp)]
          simp only [Nat.zero_add]
          rw [ih2]
          constructor
          · rintro ⟨x, hx, hxw⟩
            exact ⟨x, List.mem_cons_of_mem _ hx, hxw⟩
          · rintro ⟨x, hx, hxw⟩
            rcases List.mem_cons.mp hx with hx | hx
            · subst hx; exact absurd hxw hw
            · exact ⟨x, hx, hxw⟩

/-- The concrete task used for the C1 counterexample: due lies hours in the
past of every pass, so no pass's grace window contains it. -/
def c1row : Upgraded.Row :=
  { id := "a", user := "guest", title := "T", category := "General",
    due := .iso ⟨2024, 1, 2, 9, 0⟩, created := "c", done := 0,
    recurrence := "none", recurrence_extra := "\x7b\x7d", notified := 0, xp := 0 }

/-- Counterexample to C1 as stated: a pending task whose parseable `due`
lies in the past of every scheduler pass produces zero due-events — not
exactly one — because `due` never falls inside a pass's `[now-1min, now]`
window. -/
theorem C1_counterexample :
    parse_iso c1row.due = some ⟨2024, 1, 2, 9, 0⟩
    ∧ c1row.done = 0 ∧ c1row.notified = 0
    ∧ (⟨2024, 1, 2, 9, 0⟩ : PyDateTime).toMin < (⟨2024, 1, 8, 9, 0⟩ : PyDateTime).toMin
    ∧ (Upgraded.notifier_run
        [⟨2024, 1, 8, 9, 0⟩, ⟨2024, 1, 8, 9, 5⟩, ⟨2024, 1, 9, 9, 0⟩] c1row).2 = 0 := by
  decide

/-- Witness for C1's amended theorem: one in-window pass fires exactly once
across three passes. -/
theorem C1_notifier_amended_witness :
    (c1row.done = 0 ∧ c1row.notified = 0)
    ∧ (Upgraded.notifier_run
        [⟨2024, 1, 2, 9, 0⟩, ⟨2024, 1, 2, 9, 1⟩, ⟨2024, 1, 2, 9, 2⟩] c1row).2 = 1 := by
  have h := C1_notifier_amended c1row ⟨2024, 1, 2, 9, 0⟩
    [⟨2024, 1, 2, 9, 0⟩, ⟨2024, 1, 2, 9, 1⟩, ⟨2024, 1, 2, 9, 2⟩] rfl
  refine ⟨⟨rfl, rfl⟩, ?_⟩
  exact ((h.2 rfl rfl).2).mpr ⟨⟨2024, 1, 2, 9, 0⟩, by decide, by decide⟩

/-!
Claim C5 — toggle back to not-done.  In the legacy app the un-done toggle
resets `notified`; in the upgraded app it does not (only `done` is rewritten
and the `if new_done:` block is skipped entirely), so the claim as stated
fails there.  No profile reward is reversed in either app.
-/

theorem legacy_toggle_undone (pre post : List Legacy.LTask) (t : Legacy.LTask)
    (lid newId : String) (hid : t.id = lid) (hpre : ∀ p ∈ pre, p.id ≠ lid)
    (hdone : t.done = true) :
    Legacy.toggle_done (pre ++ t :: post) lid newId
      = pre ++ { t with done := false, notified := false } :: post := by
  induction pre with
  | nil =>
    simp only [List.nil_append]
    unfold Legacy.toggle_done
    rw [if_pos hid]
    simp [hdone]
  | cons p pre' ih =>
    have hp : p.id ≠ lid := hpre p (List.mem_cons_self _ _)
    simp only [List.cons_append]
    unfold Legacy.toggle_done
    rw [if_neg hp]
    rw [ih (fun q hq => hpre q (List.mem_cons_of_mem _ hq))]

/-- C5 (amended): toggling a done task back to not-done clears `done` and
performs no profile reward reversal (coins, streak and the task's xp are
untouched) in both apps; `notified` is reset to false by the legacy
`ToDoZen.toggle_done`, but `ToDoZenApp._toggle_done` leaves `notified`
unchanged (it is re-armed only by snooze/edit, which change `due`). -/
theorem C5_undo_amended
    (st : Upgraded.AppState) (id_ cu : String) (today utcNow : PyDateTime)
    (utcText newId : String) (task : Upgraded.Row)
    (ht : Upgraded.Storage.get_task st.tasks id_ = some task)
    (hdone : task.done ≠ 0)
    (pre post : List Legacy.LTask) (lt : Legacy.LTask) (lid lnew : String)
    (hlid : lt.id = lid) (hlpre : ∀ p ∈ pre, p.id ≠ lid) (hldone : lt.done = true) :
    Upgraded.toggle_done st id_ cu today utcNow utcText newId
      = ({ tasks := Upgraded.Storage.update_task st.tasks id_ (fun r => { r with done := 0 }),
           users := st.users }, none)
    ∧ Upgraded.Storage.get_task
        (Upgraded.toggle_done st id_ cu today utcNow utcText newId).1.tasks id_
      = some { task with done := 0 }
    ∧ Legacy.toggle_done (pre ++ lt :: post) lid lnew
      = pre ++ { lt with done := false, notified := false } :: post := by
  have hbe : (task.done == 0) = false := by
    simpa using hdone
  have hmain : Upgraded.toggle_done st id_ cu today utcNow utcText newId
      = ({ tasks := Upgraded.Storage.update_task st.tasks id_ (fun r => { r with done := 0 }),
           users := st.users }, none) := by
    unfold Upgraded.toggle_done
    rw [ht]
    simp only [hbe]
    simp
  refine ⟨hmain, ?_, legacy_toggle_undone pre post lt lid lnew hlid hlpre hldone⟩
  rw [hmain]
  dsimp only
  rw [Upgraded.get_task_update st.tasks id_ (fun r => { r with done := 0 }) (fun r => rfl), ht]
  rfl

/-- Concrete upgraded state for the C5 counterexample: one done, notified
task plus its profile. -/
def c5state : Upgraded.AppState :=
  { tasks := [{ id := "a", user := "guest", title := "T", category := "General",
                due := .iso ⟨2024, 1, 2, 9, 0⟩, created := "c", done := 1,
                recurrence := "none", recurrence_extra := "\x7b\x7d", notified := 1, xp := 3 }],
    users := [{ username := "guest", coins := 5, streak := 2, last_completed := none }] }

/-- Counterexample to C5 as stated: in the upgraded app, toggling the done
task back to not-done clears `done` but leaves `notified` at 1 — it is not
reset to false as the claim asserts. -/
theorem C5_counterexample :
    ((Upgraded.toggle_done c5state "a" "guest" ⟨2024, 1, 3, 0, 0⟩ ⟨2024, 1, 3, 0, 0⟩ "u" "n").1.tasks.map
        Upgraded.Row.notified = [1])
    ∧ ((Upgraded.toggle_done c5state "a" "guest" ⟨2024, 1, 3, 0, 0⟩ ⟨2024, 1, 3, 0, 0⟩ "u" "n").1.tasks.map
        Upgraded.Row.done = [0])
    ∧ ((Upgraded.toggle_done c5state "a" "guest" ⟨2024, 1, 3, 0, 0⟩ ⟨2024, 1, 3, 0, 0⟩ "u" "n").1.users
        = c5state.users) := by
  decide

/-- Witness for C5's amended theorem at concrete states of both apps. -/
theorem C5_undo_amended_witness :
    Upgraded.toggle_done c5state "a" "guest" ⟨2024, 1, 3, 0, 0⟩ ⟨2024, 1, 3, 0, 0⟩ "u" "n"
      = ({ tasks := Upgraded.Storage.update_task c5state.tasks "a" (fun r => { r with done := 0 }),
           users := c5state.users }, none)
    ∧ Legacy.toggle_done
        [{ id := "b", task := "L", category := "General", due := .iso ⟨2024, 1, 2, 9, 0⟩,
           done := true, created := "c", recurrence := "none", notified := true }] "b" "m"
      = [{ id := "b", task := "L", category := "General", due := .iso ⟨2024, 1, 2, 9, 0⟩,
           done := false, created := "c", recurrence := "none", notified := false }] := by
  have h := C5_undo_amended c5state "a" "guest" ⟨2024, 1, 3, 0, 0⟩ ⟨2024, 1, 3, 0, 0⟩ "u" "n"
    { id := "a", user := "guest", title := "T", category := "General",
      due := .iso ⟨2024, 1, 2, 9, 0⟩, created := "c", done := 1,
      recurrence := "none", recurrence_extra := "\x7b\x7d", notified := 1, xp := 3 }
    rfl (by decide) []
    [] { id := "b", task := "L", category := "General", due := .iso ⟨2024, 1, 2, 9, 0⟩,
         done := true, created := "c", recurrence := "none", notified := true } "b" "m"
    rfl (by intro p hp; cases hp) rfl
  exact ⟨h.1, h.2.2⟩

/-!
Claim C3 — monthly recurrence.  The upgraded app uses
`relativedelta(months=1)` (calendar-aware, clamped day), but the legacy app
computes `due + timedelta(days=30)`, so the claim as stated fails on the
legacy `_schedule_next_for_recurring`.
-/

/-- C3 (amended): on completion of a `monthly` task, the upgraded app's next
due is the calendar-aware month increment (month advanced by one with year
carry, same day-of-month clamped to the shorter month's last valid day, time
of day preserved), while the legacy app's next due is the naive
`due + 30 days`. -/
theorem C3_monthly_amended (task : Upgraded.Row) (due : PyDateTime)
    (hrec : task.recurrence = "monthly") (hdue : parse_iso task.due = some due)
    (lt : Legacy.LTask) (ldue : PyDateTime) (newId : String)
    (hlrec : lt.recurrence = "monthly") (hldue : parse_iso lt.due = some ldue)
    (hvalid : ldue.ValidDate) :
    Upgraded.next_due_of task = .ok (some (addOneMonth due))
    ∧ (addOneMonth due).month = (if due.month = 12 then 1 else due.month + 1)
    ∧ (addOneMonth due).year = (if due.month = 12 then due.year + 1 else due.year)
    ∧ (addOneMonth due).day
      = min due.day (daysInMonth (addOneMonth due).year (addOneMonth due).month)
    ∧ (addOneMonth due).hour = due.hour ∧ (addOneMonth due).minute = due.minute
    ∧ Legacy.schedule_next lt newId
      = some { lt with id := newId, due := .iso (addDays ldue 30), done := false,
                       notified := false }
    ∧ (addDays ldue 30).toDays = ldue.toDays + 30 := by
  refine ⟨?_, ?_, ?_, ?_, rfl, rfl, ?_, ?_⟩
  · unfold Upgraded.next_due_of
    rw [hdue, hrec]
    rfl
  · unfold addOneMonth
    by_cases h : due.month = 12 <;> simp [h]
  · unfold addOneMonth
    by_cases h : due.month = 12 <;> simp [h]
  · unfold addOneMonth
    by_cases h : due.month = 12 <;> simp [h]
  · unfold Legacy.schedule_next
    rw [hlrec, hldue]
    rfl
  · exact (addDays_spec ldue 30 hvalid (by norm_num)).1

/-- Legacy concrete task for the C3 counterexample: monthly from Jan 31. -/
def c3lt : Legacy.LTask :=
  { id := "a", task := "T", category := "General", due := .iso ⟨2025, 1, 31, 9, 0⟩,
    done := true, created := "c", recurrence := "monthly", notified := false }

/-- Counterexample to C3 as stated: the legacy scheduler advances a monthly
task due Jan 31 2025 to Mar 2 2025 (due + 30 days), not the calendar-aware
Feb 28 2025 the claim requires. -/
theorem C3_counterexample :
    Legacy.schedule_next c3lt "n"
      = some { c3lt with id := "n", due := .iso ⟨2025, 3, 2, 9, 0⟩, done := false,
                         notified := false }
    ∧ addOneMonth ⟨2025, 1, 31, 9, 0⟩ = ⟨2025, 2, 28, 9, 0⟩
    ∧ ((⟨2025, 3, 2, 9, 0⟩ : PyDateTime) ≠ ⟨2025, 2, 28, 9, 0⟩) := by
  decide

/-- Upgraded concrete task for the C3 witness: monthly from Jan 31 2024
(leap year). -/
def c3task : Upgraded.Row :=
  { id := "a", user := "guest", title := "T", category := "General",
    due := .iso ⟨2024, 1, 31, 9, 0⟩, created := "c", done := 0,
    recurrence := "monthly", recurrence_extra := "\x7b\x7d", notified := 0, xp := 0 }

/-- Witness for C3's amended theorem: the upgraded app takes Jan 31 2024 to
Feb 29 2024 (leap year) while the legacy app adds a flat 30 days. -/
theorem C3_monthly_amended_witness :
    Upgraded.next_due_of c3task = .ok (some (addOneMonth ⟨2024, 1, 31, 9, 0⟩))
    ∧ Legacy.schedule_next c3lt "n"
      = some { c3lt with id := "n", due := .iso (addDays ⟨2025, 1, 31, 9, 0⟩ 30),
                         done := false, notified := false }
    ∧ addOneMonth ⟨2024, 1, 31, 9, 0⟩ = ⟨2024, 2, 29, 9, 0⟩ := by
  have h := C3_monthly_amended c3task ⟨2024, 1, 31, 9, 0⟩ rfl rfl
    c3lt ⟨2025, 1, 31, 9, 0⟩ "n" rfl rfl (by decide)
  exact ⟨h.1, h.2.2.2.2.2.2.1, by decide⟩

/-!
Claim C6 — streak update on completion.
-/

/-- C6: on task completion the updated profile's streak follows the code's
trichotomy: +1 exactly when `last_completed` parses to yesterday's date
relative to the completion date, unchanged when it parses to today's date,
and reset to 1 otherwise (gap of more than one day, no prior completion, or
unparseable text). -/
theorem C6_streak (st : Upgraded.AppState) (id_ cu : String) (today utcNow : PyDateTime)
    (utcText newId : String) (task : Upgraded.Row) (user : Upgraded.URow)
    (ht : Upgraded.Storage.get_task st.tasks id_ = some task)
    (hnew : task.done = 0)
    (hu : Upgraded.Storage.get_user st.users cu = some user) :
    Upgraded.Storage.get_user
        (Upgraded.toggle_done st id_ cu today utcNow utcText newId).1.users cu
      = some { user with coins := user.coins + Upgraded.award_xp_for_task task / 5,
                         streak := Upgraded.new_streak_of user today,
                         last_completed := some (.iso utcNow) }
    ∧ ((user.last_completed.bind parse_iso).any
          (fun l => l.dateTriple == (addDays today (-1)).dateTriple) = true
        → Upgraded.new_streak_of user today = user.streak + 1)
    ∧ ((user.last_completed.bind parse_iso).any
          (fun l => l.dateTriple == (addDays today (-1)).dateTriple) = false
        → (user.last_completed.bind parse_iso).any
            (fun l => l.dateTriple == today.dateTriple) = true
        → Upgraded.new_streak_of user today = user.streak)
    ∧ ((user.last_completed.bind parse_iso).any
          (fun l => l.dateTriple == (addDays today (-1)).dateTriple) = false
        → (user.last_completed.bind parse_iso).any
            (fun l => l.dateTriple == today.dateTriple) = false
        → Upgraded.new_streak_of user today = 1) := by
  have hbe : (task.done == 0) = true := by simp [hnew]
  refine ⟨?_, ?_, ?_, ?_⟩
  · have husers : (Upgraded.toggle_done st id_ cu today utcNow utcText newId).1.users
        = Upgraded.Storage.update_user st.users cu
            (fun u => { u with coins := user.coins + Upgraded.award_xp_for_task task / 5,
                               streak := Upgraded.new_streak_of user today,
                               last_completed := some (.iso utcNow) }) := by
      unfold Upgraded.toggle_done
      rw [ht]
      simp only [hbe, if_true]
      rw [hu]
      by_cases hr : task.recurrence ≠ "" ∧ task.recurrence ≠ "none"
      · simp only [if_pos hr]
      · simp only [if_neg hr]
    rw [husers]
    rw [Upgraded.get_user_update st.users cu
      (fun u => { u with coins := user.coins + Upgraded.award_xp_for_task task / 5,
                         streak := Upgraded.new_streak_of user today,
                         last_completed := some (.iso utcNow) }) (fun u => rfl), hu]
    rfl
  · intro h1
    simp only [Upgraded.new_streak_of]
    rw [h1]
    simp
  · intro h1 h2
    simp only [Upgraded.new_streak_of]
    rw [h1, h2]
    simp
  · intro h1 h2
    simp only [Upgraded.new_streak_of]
    rw [h1, h2]
    simp

/-- Concrete state for the C6 witness: the profile last completed yesterday
relative to the completion date, so the streak increments. -/
def c6state : Upgraded.AppState :=
  { tasks := [{ id := "a", user := "guest", title := "T", category := "General",
                due := .iso ⟨2024, 1, 2, 9, 0⟩, created := "c", done := 0,
                recurrence := "none", recurrence_extra := "\x7b\x7d", notified := 0, xp := 0 }],
    users := [{ username := "guest", coins := 5, streak := 2,
                last_completed := some (.iso ⟨2024, 1, 1, 12, 0⟩) }] }

/-- Witness for C6: completing on Jan 2 after a Jan 1 completion takes the
streak from 2 to 3. -/
theorem C6_streak_witness :
    Upgraded.Storage.get_user
        (Upgraded.toggle_done c6state "a" "guest" ⟨2024, 1, 2, 10, 0⟩ ⟨2024, 1, 2, 10, 0⟩ "u" "n").1.users
        "guest"
      = some { username := "guest", coins := 5 + Upgraded.award_xp_for_task
                 { id := "a", user := "guest", title := "T", category := "General",
                   due := .iso ⟨2024, 1, 2, 9, 0⟩, created := "c", done := 0,
                   recurrence := "none", recurrence_extra := "\x7b\x7d", notified := 0, xp := 0 } / 5,
               streak := Upgraded.new_streak_of
                 { username := "guest", coins := 5, streak := 2,
                   last_completed := some (.iso ⟨2024, 1, 1, 12, 0⟩) } ⟨2024, 1, 2, 10, 0⟩,
               last_completed := some (.iso ⟨2024, 1, 2, 10, 0⟩) }
    ∧ Upgraded.new_streak_of
        { username := "guest", coins := 5, streak := 2,
          last_completed := some (.iso ⟨2024, 1, 1, 12, 0⟩) } ⟨2024, 1, 2, 10, 0⟩ = 2 + 1 := by
  have h := C6_streak c6state "a" "guest" ⟨2024, 1, 2, 10, 0⟩ ⟨2024, 1, 2, 10, 0⟩ "u" "n"
    { id := "a", user := "guest", title := "T", category := "General",
      due := .iso ⟨2024, 1, 2, 9, 0⟩, created := "c", done := 0,
      recurrence := "none", recurrence_extra := "\x7b\x7d", notified := 0, xp := 0 }
    { username := "guest", coins := 5, streak := 2,
      last_completed := some (.iso ⟨2024, 1, 1, 12, 0⟩) }
    rfl rfl rfl
  exact ⟨h.1, h.2.1 (by decide)⟩

/-!
Claim C7 — malformed `recurrence_extra`.  A JSON object without an active
sub-mode indeed yields no next occurrence and no raise; but recurrence_extra
text that fails `json.loads`, or decodes to a non-object, makes the
completion raise, contradicting the claim as stated.
-/

/-- C7 (amended): for a `custom` task whose stored `recurrence_extra`
decodes to a JSON object with neither a truthy `every_x_days` nor a truthy
`weekdays` entry, completion yields no next occurrence and raises no error:
no new task row is inserted (the stored id list is unchanged) and the toggle
succeeds.  (Extra text that fails to decode, or decodes to a non-object,
instead raises — see the counterexample.) -/
theorem C7_malformed_amended (st : Upgraded.AppState) (id_ cu : String)
    (today utcNow : PyDateTime) (utcText newId : String) (task : Upgraded.Row)
    (kvs : List (String × Jv))
    (ht : Upgraded.Storage.get_task st.tasks id_ = some task)
    (hnew : task.done = 0)
    (hrec : task.recurrence = "custom")
    (hload : json_loads (if task.recurrence_extra = "" then "\x7b\x7d" else task.recurrence_extra)
      = some (.jobj kvs))
    (hexd : optTruthy (jGet kvs "every_x_days") = false)
    (hwds : optTruthy (jGet kvs "weekdays") = false) :
    Upgraded.next_due_of task = .ok none
    ∧ (∀ rows newId2 nowIso, Upgraded.handle_recurrence task newId2 nowIso rows = (rows, none))
    ∧ (Upgraded.toggle_done st id_ cu today utcNow utcText newId).2 = none
    ∧ (Upgraded.toggle_done st id_ cu today utcNow utcText newId).1.tasks.map Upgraded.Row.id
      = st.tasks.map Upgraded.Row.id := by
  have hbe : (task.done == 0) = true := by simp [hnew]
  have hnd : Upgraded.next_due_of task = .ok none := by
    unfold Upgraded.next_due_of
    cases hdue : parse_iso task.due with
    | none => rfl
    | some due =>
      rw [hrec]
      simp only [reduceIte]
      rw [hload]
      simp only [hexd, hwds]
      rfl
  have hhr : ∀ rows newId2 nowIso,
      Upgraded.handle_recurrence task newId2 nowIso rows = (rows, none) := by
    intro rows newId2 nowIso
    unfold Upgraded.handle_recurrence
    rw [hnd]
  have hcond : task.recurrence ≠ "" ∧ task.recurrence ≠ "none" := by
    rw [hrec]; exact ⟨by decide, by decide⟩
  refine ⟨hnd, hhr, ?_, ?_⟩
  · unfold Upgraded.toggle_done
    rw [ht]
    simp only [hbe, if_true]
    cases hget : Upgraded.Storage.get_user st.users cu with
    | none => simp only [if_pos hcond, hhr]
    | some user => simp only [if_pos hcond, hhr]
  · unfold Upgraded.toggle_done
    rw [ht]
    simp only [hbe, if_true]
    cases hget : Upgraded.Storage.get_user st.users cu with
    | none =>
      simp only [if_pos hcond, hhr]
      exact Upgraded.map_id_update st.tasks id_ _ (fun r => rfl)
    | some user =>
      simp only [if_pos hcond, hhr]
      exact (Upgraded.map_id_update _ id_
          (fun r => { r with xp := Upgraded.award_xp_for_task task }) (fun r => rfl)).trans
        (Upgraded.map_id_update st.tasks id_ (fun r => { r with done := 1 }) (fun r => rfl))

/-- Concrete state for the C7 counterexample: a pending custom task whose
`recurrence_extra` is not valid JSON. -/
def c7state : Upgraded.AppState :=
  { tasks := [{ id := "a", user := "guest", title := "T", category := "General",
                due := .iso ⟨2024, 1, 2, 9, 0⟩, created := "c", done := 0,
                recurrence := "custom", recurrence_extra := "oops", notified := 0, xp := 0 }],
    users := [{ username := "guest", coins := 0, streak := 0, last_completed := none }] }

/-- Counterexample to C7 as stated: completing a custom task whose stored
`recurrence_extra` does not parse as JSON raises `json.JSONDecodeError`
(after the done/reward writes) instead of silently yielding no next
occurrence. -/
theorem C7_counterexample :
    (Upgraded.toggle_done c7state "a" "guest" ⟨2024, 1, 3, 0, 0⟩ ⟨2024, 1, 3, 0, 0⟩ "u" "n").2
      = some PyErr.jsonDecodeError
    ∧ Upgraded.next_due_of
        { id := "a", user := "guest", title := "T", category := "General",
          due := .iso ⟨2024, 1, 2, 9, 0⟩, created := "c", done := 0,
          recurrence := "custom", recurrence_extra := "oops", notified := 0, xp := 0 }
      = .error .jsonDecodeError := by
  constructor
  · rfl
  · rfl

/-- Witness for C7's amended theorem: an object lacking both sub-mode keys
completes without error and inserts nothing. -/
theorem C7_malformed_amended_witness :
    (Upgraded.toggle_done
        ⟨[{ id := "a", user := "guest", title := "T", category := "General",
            due := .iso ⟨2024, 1, 2, 9, 0⟩, created := "c", done := 0,
            recurrence := "custom", recurrence_extra := "\x7b\"foo\": 1\x7d",
            notified := 0, xp := 0 }],
          [{ username := "guest", coins := 0, streak := 0, last_completed := none }]⟩
        "a" "guest" ⟨2024, 1, 3, 0, 0⟩ ⟨2024, 1, 3, 0, 0⟩ "u" "n").2 = none
    ∧ (Upgraded.toggle_done
        ⟨[{ id := "a", user := "guest", title := "T", category := "General",
            due := .iso ⟨2024, 1, 2, 9, 0⟩, created := "c", done := 0,
            recurrence := "custom", recurrence_extra := "\x7b\"foo\": 1\x7d",
            notified := 0, xp := 0 }],
          [{ username := "guest", coins := 0, streak := 0, last_completed := none }]⟩
        "a" "guest" ⟨2024, 1, 3, 0, 0⟩ ⟨2024, 1, 3, 0, 0⟩ "u" "n").1.tasks.map Upgraded.Row.id
      = ["a"] := by
  have h := C7_malformed_amended
    ⟨[{ id := "a", user := "guest", title := "T", category := "General",
        due := .iso ⟨2024, 1, 2, 9, 0⟩, created := "c", done := 0,
        recurrence := "custom", recurrence_extra := "\x7b\"foo\": 1\x7d",
        notified := 0, xp := 0 }],
      [{ username := "guest", coins := 0, streak := 0, last_completed := none }]⟩
    "a" "guest" ⟨2024, 1, 3, 0, 0⟩ ⟨2024, 1, 3, 0, 0⟩ "u" "n"
    { id := "a", user := "guest", title := "T", category := "General",
      due := .iso ⟨2024, 1, 2, 9, 0⟩, created := "c", done := 0,
      recurrence := "custom", recurrence_extra := "\x7b\"foo\": 1\x7d",
      notified := 0, xp := 0 }
    [("foo", .jint 1)]
    rfl rfl rfl rfl rfl rfl
  exact ⟨h.2.2.1, h.2.2.2⟩

/-!
Claim C8 — Sync Reconciler: after `Storage.save` with the mirror reachable,
the remote id set equals the local id set and the local list is untouched.
-/

theorem mem_idSet (rows : List Legacy.LTask) (x : String) :
    x ∈ Legacy.idSet rows ↔ x ∈ rows.map Legacy.LTask.id ∧ x ≠ "" := by
  simp [Legacy.idSet, List.mem_filter]

theorem mem_map_replace_one (rem : List Legacy.LTask) (t : Legacy.LTask) (x : String) :
    x ∈ (Legacy.replace_one rem t).map Legacy.LTask.id
      ↔ (x ∈ rem.map Legacy.LTask.id ∨ x = t.id) := by
  induction rem with
  | nil => simp [Legacy.replace_one, eq_comm]
  | cons r rs ih =>
    unfold Legacy.replace_one
    by_cases h : r.id = t.id
    · rw [if_pos h]
      simp only [List.map_cons, List.mem_cons]
      constructor
      · rintro (hx | hx)
        · right; exact hx
        · left; right; exact hx
      · rintro ((hx | hx) | hx)
        · left; rw [hx, h]
        · right; exact hx
        · left; exact hx
    · rw [if_neg h]
      simp only [List.map_cons, List.mem_cons, ih]
      tauto

theorem mem_map_pushed (tasks : List Legacy.LTask) (remote : List Legacy.LTask) (x : String) :
    x ∈ (Legacy.pushed tasks remote).map Legacy.LTask.id
      ↔ (x ∈ remote.map Legacy.LTask.id ∨ x ∈ tasks.map Legacy.LTask.id) := by
  induction tasks generalizing remote with
  | nil => simp [Legacy.pushed]
  | cons t ts ih =>
    unfold Legacy.pushed at *
    simp only [List.foldl_cons]
    rw [ih (Legacy.replace_one remote t)]
    rw [mem_map_replace_one]
    simp only [List.map_cons, List.mem_cons]
    tauto

theorem mem_idSet_pushed (tasks remote : List Legacy.LTask) (x : String) :
    x ∈ Legacy.idSet (Legacy.pushed tasks remote)
      ↔ (x ∈ Legacy.idSet remote ∨ x ∈ Legacy.idSet tasks) := by
  rw [mem_idSet, mem_idSet, mem_idSet, mem_map_pushed]
  tauto

/-- C8: with the remote mirror reachable, a full `Storage.save` leaves the
local task list untouched, deletes remotely every id present remotely but
absent locally, and leaves the remote id set equal to the local id set
(rows with a missing/empty id contribute to neither id set, matching the
code's truthiness filters). -/
theorem C8_reconcile (tasks remote : List Legacy.LTask) :
    (Legacy.save tasks remote).1 = tasks
    ∧ Legacy.idSet (Legacy.save tasks remote).2 = Legacy.idSet tasks
    ∧ ∀ x, x ∈ Legacy.idSet remote → x ∉ Legacy.idSet tasks
        → x ∉ Legacy.idSet (Legacy.save tasks remote).2 := by
  have hsub : ∀ x, x ∈ Legacy.idSet tasks
      → x ∈ Legacy.idSet (Legacy.pushed tasks remote) := by
    intro x hx
    rw [mem_idSet_pushed]
    right; exact hx
  have hkey : Legacy.idSet (Legacy.save tasks remote).2 = Legacy.idSet tasks := by
    show Legacy.idSet (Legacy.save_remote tasks remote) = Legacy.idSet tasks
    unfold Legacy.save_remote
    by_cases hd : Legacy.to_delete_set tasks remote = ∅
    · rw [if_pos hd]
      apply Finset.ext
      intro x
      constructor
      · intro hx
        by_contra hnx
        have : x ∈ Legacy.to_delete_set tasks remote := by
          unfold Legacy.to_delete_set
          rw [Finset.mem_sdiff]
          exact ⟨hx, hnx⟩
        rw [hd] at this
        exact absurd this (Finset.not_mem_empty x)
      · exact hsub x
    · rw [if_neg hd]
      apply Finset.ext
      intro x
      rw [mem_idSet]
      constructor
      · rintro ⟨hx, hne⟩
        rw [List.mem_map] at hx
        obtain ⟨r, hr, hrx⟩ := hx
        rw [List.mem_filter] at hr
        obtain ⟨hrp, hrd⟩ := hr
        have hxp : x ∈ Legacy.idSet (Legacy.pushed tasks remote) := by
          rw [mem_idSet]
          exact ⟨List.mem_map.mpr ⟨r, hrp, hrx⟩, hne⟩
        have hxd : x ∉ Legacy.to_delete_set tasks remote := by
          rw [← hrx]
          simpa using hrd
        by_contra hnx
        apply hxd
        unfold Legacy.to_delete_set
        rw [Finset.mem_sdiff]
        exact ⟨hxp, hnx⟩
      · intro hx
        have hne : x ≠ "" := ((mem_idSet tasks x).mp hx).2
        have hxt : x ∈ tasks.map Legacy.LTask.id := ((mem_idSet tasks x).mp hx).1
        have hxp : x ∈ (Legacy.pushed tasks remote).map Legacy.LTask.id := by
          rw [mem_map_pushed]; right; exact hxt
        have hxd : x ∉ Legacy.to_delete_set tasks remote := by
          unfold Legacy.to_delete_set
          rw [Finset.mem_sdiff]
          rintro ⟨_, hcon⟩
          exact hcon hx
        rw [List.mem_map] at hxp
        obtain ⟨r, hr, hrx⟩ := hxp
        refine ⟨List.mem_map.mpr ⟨r, ?_, hrx⟩, hne⟩
        rw [List.mem_filter]
        refine ⟨hr, ?_⟩
        rw [hrx]
        simpa using hxd
  refine ⟨rfl, hkey, ?_⟩
  intro x _ hnx
  rw [hkey]
  exact hnx

/-- Witness for C8 at the spec's example: local ids `{A, B}`, remote ids
`{A, B, C}`; after reconciliation the remote id set is `{A, B}`. -/
theorem C8_reconcile_witness :
    Legacy.idSet (Legacy.save
        [{ id := "A", task := "a", category := "General", due := .iso ⟨2024, 1, 2, 9, 0⟩,
           done := false, created := "c", recurrence := "none", notified := false },
         { id := "B", task := "b", category := "General", due := .iso ⟨2024, 1, 3, 9, 0⟩,
           done := false, created := "c", recurrence := "none", notified := false }]
        [{ id := "A", task := "a", category := "General", due := .iso ⟨2024, 1, 2, 9, 0⟩,
           done := false, created := "c", recurrence := "none", notified := false },
         { id := "B", task := "b", category := "General", due := .iso ⟨2024, 1, 3, 9, 0⟩,
           done := false, created := "c", recurrence := "none", notified := false },
         { id := "C", task := "x", category := "General", due := .iso ⟨2024, 1, 4, 9, 0⟩,
           done := false, created := "c", recurrence := "none", notified := false }]).2
      = Legacy.idSet
        [{ id := "A", task := "a", category := "General", due := .iso ⟨2024, 1, 2, 9, 0⟩,
           done := false, created := "c", recurrence := "none", notified := false },
         { id := "B", task := "b", category := "General", due := .iso ⟨2024, 1, 3, 9, 0⟩,
           done := false, created := "c", recurrence := "none", notified := false }] :=
  (C8_reconcile _ _).2.1

/-!
Claim C9 — export then import is idempotent at the second import: records
are keyed by id through `add_task`'s `INSERT OR REPLACE`, so re-running the
same import yields no duplicate rows and leaves the store unchanged.
-/

namespace Upgraded

/-- The row `add_task` stores for an exported record of `r` (with `id` and
`created` present the uuid/now defaults are unused).  `done`/`notified` are
re-normalised through truthiness and `recurrence_extra` is re-serialised
(the raw TEXT is wrapped as a JSON string). -/
def reimported (r : Row) : Row :=
  { id := r.id
    user := r.user
    title := r.title
    category := r.category
    due := r.due
    created := r.created
    done := if truthy (.jint r.done) then 1 else 0
    recurrence := if r.recurrence = "" then "none" else r.recurrence
    recurrence_extra := jDump (.jstr r.recurrence_extra)
    notified := if truthy (.jint r.notified) then 1 else 0
    xp := r.xp }

theorem add_task_export_rec (fresh nowIso : String) (r : Row) (rows : List Row)
    (hid : r.id ≠ "") (hcr : r.created ≠ "") :
    Storage.add_task fresh nowIso (row_to_dict r) rows
      = rows.filter (fun x => x.id ≠ r.id) ++ [reimported r] := by
  unfold Storage.add_task row_to_dict reimported
  simp only [if_neg hid, if_neg hcr]
  rfl

theorem import_json_export (fresh nowIso : String) (st : List Row) :
    ∀ s : List Row,
    (∀ r ∈ st, r.id ≠ "") → (∀ r ∈ st, r.created ≠ "") → (st.map Row.id).Nodup →
    Storage.import_json fresh nowIso (Storage.export_json st) s
      = (s.filter (fun x => x.id ∉ st.map Row.id)) ++ st.map reimported := by
  induction st with
  | nil =>
    intro s _ _ _
    simp [Storage.import_json, Storage.export_json]
  | cons r st' ih =>
    intro s hid hcr hnd
    have hidr : r.id ≠ "" := hid r (List.mem_cons_self _ _)
    have hcrr : r.created ≠ "" := hcr r (List.mem_cons_self _ _)
    have hnd' : (st'.map Row.id).Nodup := (List.nodup_cons.mp hnd).2
    have hrnotin : r.id ∉ st'.map Row.id := (List.nodup_cons.mp hnd).1
    show Storage.import_json fresh nowIso
        (row_to_dict r :: Storage.export_json st')
        s = _
    have hstep : Storage.import_json fresh nowIso
        (row_to_dict r :: Storage.export_json st') s
      = Storage.import_json fresh nowIso (Storage.export_json st')
          (Storage.add_task fresh nowIso (row_to_dict r) s) := rfl
    rw [hstep, add_task_export_rec fresh nowIso r s hidr hcrr]
    rw [ih _ (fun q hq => hid q (List.mem_cons_of_mem _ hq))
          (fun q hq => hcr q (List.mem_cons_of_mem _ hq)) hnd']
    rw [List.filter_append]
    have hconv : (List.filter (fun x => decide (x.id ∉ st'.map Row.id)) [reimported r])
        = [reimported r] := by
      simp only [List.filter]
      have : (reimported r).id ∉ st'.map Row.id := hrnotin
      simp [this]
    rw [hconv]
    have hff : (List.filter (fun x => decide (x.id ∉ st'.map Row.id))
          (List.filter (fun x => decide (x.id ≠ r.id)) s))
        = List.filter (fun x => decide (x.id ∉ (r :: st').map Row.id)) s := by
      rw [List.filter_filter]
      apply List.filter_congr
      intro x _
      by_cases h1 : x.id = r.id <;> by_cases h2 : x.id ∈ st'.map Row.id <;>
        simp [h1, h2]
    rw [hff]
    simp [List.map_cons]

theorem map_id_reimported (st : List Row) :
    (st.map reimported).map Row.id = st.map Row.id := by
  induction st with
  | nil => rfl
  | cons r st' ih => simp [reimported, ih]

end Upgraded

/-- C9: exporting the full store and importing the exported records twice —
the second import re-applies each record through the `add_task` upsert keyed
by id, produces no duplicate rows, and leaves the store observationally
unchanged from the first import.  (The `fresh`/`nowIso` arguments model the
distinct uuid/utcnow draws of the two runs; the result does not depend on
them.) -/
theorem C9_import_idempotent (st : List Upgraded.Row) (fresh1 now1 fresh2 now2 : String)
    (hid : ∀ r ∈ st, r.id ≠ "") (hcr : ∀ r ∈ st, r.created ≠ "")
    (hnd : (st.map Upgraded.Row.id).Nodup) :
    Upgraded.Storage.import_json fresh2 now2 (Upgraded.Storage.export_json st)
        (Upgraded.Storage.import_json fresh1 now1 (Upgraded.Storage.export_json st) st)
      = Upgraded.Storage.import_json fresh1 now1 (Upgraded.Storage.export_json st) st
    ∧ ((Upgraded.Storage.import_json fresh1 now1 (Upgraded.Storage.export_json st) st).map
        Upgraded.Row.id).Nodup := by
  have hself : st.filter (fun x => x.id ∉ st.map Upgraded.Row.id) = [] := by
    apply List.filter_eq_nil_iff.mpr
    intro x hx
    have hm : x.id ∈ st.map Upgraded.Row.id := List.mem_map.mpr ⟨x, hx, rfl⟩
    simp [hm]
  have h1 : Upgraded.Storage.import_json fresh1 now1 (Upgraded.Storage.export_json st) st
      = st.map Upgraded.reimported := by
    rw [Upgraded.import_json_export fresh1 now1 st st hid hcr hnd, hself]
    rfl
  have hids1 : (st.map Upgraded.reimported).map Upgraded.Row.id = st.map Upgraded.Row.id :=
    Upgraded.map_id_reimported st
  have hself2 : (st.map Upgraded.reimported).filter
      (fun x => x.id ∉ st.map Upgraded.Row.id) = [] := by
    apply List.filter_eq_nil_iff.mpr
    intro x hx
    have hm : x.id ∈ st.map Upgraded.Row.id := by
      rw [← hids1]
      exact List.mem_map.mpr ⟨x, hx, rfl⟩
    simp [hm]
  have h2 : Upgraded.Storage.import_json fresh2 now2 (Upgraded.Storage.export_json st)
        (st.map Upgraded.reimported)
      = st.map Upgraded.reimported := by
    rw [Upgraded.import_json_export fresh2 now2 st _ hid hcr hnd, hself2]
    rfl
  constructor
  · rw [h1, h2]
  · rw [h1, hids1]
    exact hnd

/-- Witness for C9 at a one-row store (the second import reproduces the
first import's store exactly and keeps ids duplicate-free). -/
theorem C9_import_idempotent_witness :
    Upgraded.Storage.import_json "u2" "n2"
        (Upgraded.Storage.export_json
          [{ id := "a", user := "guest", title := "T", category := "General",
             due := .iso ⟨2024, 1, 2, 9, 0⟩, created := "c", done := 0,
             recurrence := "none", recurrence_extra := "\x7b\x7d", notified := 0, xp := 0 }])
        (Upgraded.Storage.import_json "u1" "n1"
          (Upgraded.Storage.export_json
            [{ id := "a", user := "guest", title := "T", category := "General",
               due := .iso ⟨2024, 1, 2, 9, 0⟩, created := "c", done := 0,
               recurrence := "none", recurrence_extra := "\x7b\x7d", notified := 0, xp := 0 }])
          [{ id := "a", user := "guest", title := "T", category := "General",
             due := .iso ⟨2024, 1, 2, 9, 0⟩, created := "c", done := 0,
             recurrence := "none", recurrence_extra := "\x7b\x7d", notified := 0, xp := 0 }])
      = Upgraded.Storage.import_json "u1" "n1"
          (Upgraded.Storage.export_json
            [{ id := "a", user := "guest", title := "T", category := "General",
               due := .iso ⟨2024, 1, 2, 9, 0⟩, created := "c", done := 0,
               recurrence := "none", recurrence_extra := "\x7b\x7d", notified := 0, xp := 0 }])
          [{ id := "a", user := "guest", title := "T", category := "General",
             due := .iso ⟨2024, 1, 2, 9, 0⟩, created := "c", done := 0,
             recurrence := "none", recurrence_extra := "\x7b\x7d", notified := 0, xp := 0 }] :=
  (C9_import_idempotent
    [{ id := "a", user := "guest", title := "T", category := "General",
       due := .iso ⟨2024, 1, 2, 9, 0⟩, created := "c", done := 0,
       recurrence := "none", recurrence_extra := "\x7b\x7d", notified := 0, xp := 0 }]
    "u1" "n1" "u2" "n2" (by decide) (by decide) (by decide)).1

/-!
Claim C2 — custom weekday-set recurrence.
-/

theorem asIntList_nil_iff (ws : List Jv) (ds : List Int)
    (h : asIntList (.jarr ws) = some ds) : (ws = [] ↔ ds = []) := by
  cases ws with
  | nil =>
    simp only [asIntList, List.mapM_nil] at h
    cases h
    simp
  | cons w ws' =>
    simp only [asIntList] at h
    constructor
    · intro hc; cases hc
    · intro hc
      subst hc
      rw [List.mapM_cons] at h
      cases hw : jvAsInt w with
      | none => rw [hw] at h; simp at h
      | some v =>
        rw [hw] at h
        cases hws : ws'.mapM jvAsInt with
        | none => rw [hws] at h; simp at h
        | some vs => rw [hws] at h; simp at h

/-- C2: for a completed `custom` task with a decoded weekday set, an empty
set yields no next occurrence (no insert, no error); a non-empty set of
weekday indices 0..6 advances `due` to the smallest configured weekday
strictly greater than `weekday(due)`, or wraps to the smallest configured
weekday with `(7 - weekday(due)) + that weekday` days, preserving the time
of day. -/
theorem C2_custom_weekdays (task : Upgraded.Row) (due : PyDateTime)
    (kvs : List (String × Jv)) (ws : List Jv) (ds : List Int)
    (hrec : task.recurrence = "custom")
    (hdue : parse_iso task.due = some due)
    (hload : json_loads (if task.recurrence_extra = "" then "\x7b\x7d" else task.recurrence_extra)
      = some (.jobj kvs))
    (hexd : optTruthy (jGet kvs "every_x_days") = false)
    (hwds : jGet kvs "weekdays" = some (.jarr ws))
    (hints : asIntList (.jarr ws) = some ds)
    (hrange : ∀ d ∈ ds, 0 ≤ d ∧ d ≤ 6)
    (hvalid : due.ValidDate) :
    (ds = [] → Upgraded.next_due_of task = .ok none
      ∧ ∀ rows newId nowIso, Upgraded.handle_recurrence task newId nowIso rows = (rows, none))
    ∧ (ds ≠ [] → ∃ delta f : Int,
        Upgraded.weekdays_delta due.weekday (ds.insertionSort (· ≤ ·)) = some delta
        ∧ Upgraded.next_due_of task = .ok (some (addDays due delta))
        ∧ (∀ rows newId nowIso, Upgraded.handle_recurrence task newId nowIso rows
            = (Upgraded.Storage.add_task newId nowIso
                (Upgraded.row_to_new_task task newId (addDays due delta)) rows, none))
        ∧ (addDays due delta).hour = due.hour ∧ (addDays due delta).minute = due.minute
        ∧ (addDays due delta).weekday = f
        ∧ f ∈ ds
        ∧ ((∃ x ∈ ds, due.weekday < x)
            → (due.weekday < f ∧ ∀ x ∈ ds, due.weekday < x → f ≤ x)
              ∧ delta = f - due.weekday)
        ∧ ((∀ x ∈ ds, x ≤ due.weekday)
            → (∀ x ∈ ds, f ≤ x) ∧ delta = (7 - due.weekday) + f)) := by
  have hwd := weekday_range due
  have hperm : (ds.insertionSort (· ≤ ·)).Perm ds := List.perm_insertionSort _ ds
  have hsorted : (ds.insertionSort (· ≤ ·)).Sorted (· ≤ ·) := List.sorted_insertionSort _ ds
  constructor
  · intro hnil
    have hwsnil : ws = [] := (asIntList_nil_iff ws ds hints).mpr hnil
    have hnd : Upgraded.next_due_of task = .ok none := by
      unfold Upgraded.next_due_of
      simp only [hdue, hrec, reduceIte]
      rw [hload]
      simp only [hexd, Bool.false_eq_true, if_false]
      rw [hwds]
      subst hwsnil
      rfl
    exact ⟨hnd, fun rows newId nowIso => by
      unfold Upgraded.handle_recurrence
      rw [hnd]⟩
  · intro hne
    have hwsne : ws ≠ [] := fun hc => hne ((asIntList_nil_iff ws ds hints).mp hc)
    have hts : optTruthy (some (Jv.jarr ws)) = true := by
      simp [optTruthy, truthy, hwsne]
    have hsortne : ds.insertionSort (· ≤ ·) ≠ [] := by
      intro hc
      apply hne
      have hp2 : ds.Perm (ds.insertionSort (· ≤ ·)) := hperm.symm
      rw [hc] at hp2
      exact hp2.eq_nil
    have hnd_of : ∀ delta,
        Upgraded.weekdays_delta due.weekday (ds.insertionSort (· ≤ ·)) = some delta
        → Upgraded.next_due_of task = .ok (some (addDays due delta)) := by
      intro delta hdelta
      unfold Upgraded.next_due_of
      simp only [hdue, hrec, reduceIte]
      rw [hload]
      simp only [hexd, Bool.false_eq_true, if_false]
      rw [hwds]
      simp only [hts, if_true, Option.getD_some]
      rw [hints]
      simp only [hdelta]
      rfl
    cases hfind : (ds.insertionSort (· ≤ ·)).find? (fun d => decide (due.weekday < d)) with
    | some f =>
      obtain ⟨hgt, hmem, hleast⟩ := find_gt_least due.weekday _ hsorted f hfind
      have hfds : f ∈ ds := hperm.mem_iff.mp hmem
      have hfr := hrange f hfds
      have hdelta : Upgraded.weekdays_delta due.weekday (ds.insertionSort (· ≤ ·))
          = some (f - due.weekday) := by
        unfold Upgraded.weekdays_delta
        rw [hfind]
      have hspec := addDays_spec due (f - due.weekday) hvalid (by omega)
      refine ⟨f - due.weekday, f, hdelta, hnd_of _ hdelta, ?_, hspec.2.2.1, hspec.2.2.2,
        ?_, hfds, ?_, ?_⟩
      · intro rows newId nowIso
        unfold Upgraded.handle_recurrence
        rw [hnd_of _ hdelta]
      · show ((addDays due (f - due.weekday)).toDays + 3) % 7 = f
        rw [hspec.1]
        have hwdef : due.weekday = (due.toDays + 3) % 7 := rfl
        omega
      · intro _
        exact ⟨⟨hgt, fun x hx hgx => hleast x (hperm.mem_iff.mpr hx) hgx⟩, rfl⟩
      · intro hall
        exact absurd hgt (by have := hall f hfds; omega)
    | none =>
      have hallle : ∀ x ∈ ds.insertionSort (· ≤ ·), x ≤ due.weekday :=
        find_gt_none due.weekday _ hfind
      obtain ⟨f0, rest, hsrt⟩ := List.exists_cons_of_ne_nil hsortne
      have hf0mem : f0 ∈ ds := hperm.mem_iff.mp (hsrt ▸ List.mem_cons_self f0 rest)
      have hf0r := hrange f0 hf0mem
      have hf0le : ∀ x ∈ ds, f0 ≤ x := by
        intro x hx
        exact sorted_head_le f0 rest (hsrt ▸ hsorted) x (hsrt ▸ hperm.mem_iff.mpr hx)
      have hdelta : Upgraded.weekdays_delta due.weekday (ds.insertionSort (· ≤ ·))
          = some ((7 - due.weekday) + f0) := by
        unfold Upgraded.weekdays_delta
        rw [hfind, hsrt]
      have hspec := addDays_spec due ((7 - due.weekday) + f0) hvalid (by omega)
      refine ⟨(7 - due.weekday) + f0, f0, hdelta, hnd_of _ hdelta, ?_,
        hspec.2.2.1, hspec.2.2.2, ?_, hf0mem, ?_, ?_⟩
      · intro rows newId nowIso
        unfold Upgraded.handle_recurrence
        rw [hnd_of _ hdelta]
      · show ((addDays due ((7 - due.weekday) + f0)).toDays + 3) % 7 = f0
        rw [hspec.1]
        have hwdef : due.weekday = (due.toDays + 3) % 7 := rfl
        omega
      · rintro ⟨x, hx, hgx⟩
        have := hallle x (hperm.mem_iff.mpr hx)
        omega
      · intro _
        exact ⟨hf0le, rfl⟩

/-- Witness for C2: the spec's example — from a Wednesday with configured
set Mon/Thu the next due is the same week's Thursday (2024-01-03 is a
Wednesday, 2024-01-04 a Thursday); and an empty set inserts nothing. -/
theorem C2_custom_weekdays_witness :
    Upgraded.next_due_of
        { id := "a", user := "guest", title := "T", category := "General",
          due := .iso ⟨2024, 1, 3, 9, 0⟩, created := "c", done := 0,
          recurrence := "custom", recurrence_extra := "\x7b\"weekdays\": [0, 3]\x7d",
          notified := 0, xp := 0 }
      = .ok (some (addDays ⟨2024, 1, 3, 9, 0⟩ 1))
    ∧ addDays ⟨2024, 1, 3, 9, 0⟩ 1 = ⟨2024, 1, 4, 9, 0⟩
    ∧ Upgraded.next_due_of
        { id := "b", user := "guest", title := "T", category := "General",
          due := .iso ⟨2024, 1, 3, 9, 0⟩, created := "c", done := 0,
          recurrence := "custom", recurrence_extra := "\x7b\"weekdays\": []\x7d",
          notified := 0, xp := 0 }
      = .ok none := by
  have h1 := C2_custom_weekdays
    { id := "a", user := "guest", title := "T", category := "General",
      due := .iso ⟨2024, 1, 3, 9, 0⟩, created := "c", done := 0,
      recurrence := "custom", recurrence_extra := "\x7b\"weekdays\": [0, 3]\x7d",
      notified := 0, xp := 0 }
    ⟨2024, 1, 3, 9, 0⟩ [("weekdays", .jarr [.jint 0, .jint 3])] [.jint 0, .jint 3] [0, 3]
    rfl rfl rfl rfl rfl rfl (by decide) (by decide)
  have h2 := C2_custom_weekdays
    { id := "b", user := "guest", title := "T", category := "General",
      due := .iso ⟨2024, 1, 3, 9, 0⟩, created := "c", done := 0,
      recurrence := "custom", recurrence_extra := "\x7b\"weekdays\": []\x7d",
      notified := 0, xp := 0 }
    ⟨2024, 1, 3, 9, 0⟩ [("weekdays", .jarr [])] [] []
    rfl rfl rfl rfl rfl rfl (by decide) (by decide)
  obtain ⟨delta, f, hdelta, hnd, -⟩ := h1.2 (by decide)
  have hdval : delta = 1 := by
    have : Upgraded.weekdays_delta (PyDateTime.weekday ⟨2024, 1, 3, 9, 0⟩)
        (List.insertionSort (· ≤ ·) [0, 3]) = some 1 := by decide
    rw [this] at hdelta
    cases hdelta
    rfl
  refine ⟨?_, by decide, (h2.1 rfl).1⟩
  rw [hnd, hdval]

/-!
Claim C4 — the weekday-set scenario through the full store path.  The first
completion inserts Friday's occurrence, but `add_task` re-runs `json.dumps`
on the already-serialised `recurrence_extra` TEXT, so the inserted row
stores a JSON *string*; completing it makes `_handle_recurrence_after_completion`
call `.get` on a decoded `str` and raise `AttributeError`, inserting
nothing — the custom weekday recurrence does not survive a rollover.
-/

/-- Initial state of the C4 scenario: `T1` with weekday set Tue/Fri, due
Tuesday 2024-01-02 09:00. -/
def c4state : Upgraded.AppState :=
  { tasks := [{ id := "t1", user := "guest", title := "T", category := "General",
                due := .iso ⟨2024, 1, 2, 9, 0⟩, created := "c", done := 0,
                recurrence := "custom",
                recurrence_extra := "\x7b\"weekdays\": [1, 4]\x7d",
                notified := 0, xp := 0 }],
    users := [{ username := "guest", coins := 0, streak := 0, last_completed := none }] }

/-- State after completing `T1` (uuid draw `t2` for the inserted row). -/
def c4after1 : Upgraded.AppState × Option PyErr :=
  Upgraded.toggle_done c4state "t1" "guest" ⟨2024, 1, 2, 10, 0⟩ ⟨2024, 1, 2, 10, 0⟩ "u1" "t2"

/-- State after completing the inserted row `t2` (uuid draw `t3`). -/
def c4after2 : Upgraded.AppState × Option PyErr :=
  Upgraded.toggle_done c4after1.1 "t2" "guest" ⟨2024, 1, 5, 10, 0⟩ ⟨2024, 1, 5, 10, 0⟩ "u2" "t3"

/-- C4 at the code's failing input: completing `T1` does insert Friday
09:00 of the same week (weekday 4) as the claim says, but completing that
new task raises `AttributeError` (its stored `recurrence_extra` was
serialised a second time into a JSON string) and inserts no further row —
no following-Tuesday occurrence is created, contradicting the claim; the
claim matches the evident intent, so this is a defect in `add_task`'s
re-serialisation of fetched rows. -/
theorem C4_rollover_bug :
    c4after1.2 = none
    ∧ Upgraded.Storage.get_task c4after1.1.tasks "t2"
      = some { id := "t2", user := "guest", title := "T", category := "General",
               due := .iso ⟨2024, 1, 5, 9, 0⟩, created := "c", done := 0,
               recurrence := "custom",
               recurrence_extra := jDump (.jstr "\x7b\"weekdays\": [1, 4]\x7d"),
               notified := 0, xp := 0 }
    ∧ (⟨2024, 1, 5, 9, 0⟩ : PyDateTime).weekday = 4
    ∧ c4after2.2 = some PyErr.attributeError
    ∧ Upgraded.Storage.get_task c4after2.1.tasks "t3" = none
    ∧ c4after2.1.tasks.map Upgraded.Row.id = c4after1.1.tasks.map Upgraded.Row.id := by
  decide
